import Mathlib

/-!
Verification of the Business Trip Checklist application.

The definitions below are a shallow embedding of the checklist module
(`src/src/checklist.js`), of the shared utilities bundled with
`src/index.html` (duration rules, weather mapping, and the share-state
codec), and of the small helpers they use.  JavaScript numbers that the
application only ever uses as integers (durations, quantities, item
counts, JSON payload numbers) are modelled as `Int`; temperatures and
precipitation, which may be fractional, are modelled as `Rat`.
Field access on possibly-absent JavaScript values is modelled with
`Option`; a thrown-and-caught exception is modelled as `none`.
-/

namespace BTC

/-- Whitespace-trimming on a character list, modelling `String.trim` /
the JavaScript `trim()`. -/
def trimChars (l : List Char) : List Char :=
  ((l.dropWhile Char.isWhitespace).reverse.dropWhile Char.isWhitespace).reverse

/-- `trim()` on a string. -/
def jsTrim (s : String) : String :=
  String.mk (trimChars s.data)

/-- `toLowerCase()` on a string (ASCII case mapping). -/
def lowerStr (s : String) : String :=
  String.mk (s.data.map Char.toLower)

/-- `s.startsWith(p)`. -/
def strStartsWith (s p : String) : Bool :=
  p.data.isPrefixOf s.data

/-- ASCII alphanumeric test, matching the JavaScript character class
`[a-z0-9]` under the `i` flag. -/
def isAlnum (c : Char) : Bool :=
  c.isAlpha || c.isDigit

/-- Replaces every maximal run of non-alphanumeric characters with one
dash, as the regex replace of `[^a-z0-9]+` (global, case-insensitive)
with a dash does.  The Boolean records whether the previous character
already fell inside such a run. -/
def dashifyAux : Bool → List Char → List Char
  | _, [] => []
  | inRun, c :: cs =>
    if isAlnum c then c :: dashifyAux false cs
    else if inRun then dashifyAux true cs
    else '-' :: dashifyAux true cs

/-- Drops ASCII dashes from both ends of a character list, as the regex
replace of leading and trailing dash runs with the empty string does. -/
def trimDashes (l : List Char) : List Char :=
  ((l.dropWhile (· == '-')).reverse.dropWhile (· == '-')).reverse

/-- `slugify` from the bundled utilities: trim, lowercase, replace runs of
non-alphanumeric characters with a dash, strip dashes at both ends. -/
def slugify (text : String) : String :=
  String.mk (trimDashes (dashifyAux false ((trimChars text.data).map Char.toLower)))

/-- The replace applied to an item's `source` when deriving its id:
runs of non-alphanumeric characters become a dash (ends are kept). -/
def sanitizeSourceTag (s : String) : String :=
  String.mk (dashifyAux false s.data)

/-- Replaces every maximal run of whitespace with one space. -/
def squashSpacesAux : Bool → List Char → List Char
  | _, [] => []
  | inRun, c :: cs =>
    if !c.isWhitespace then c :: squashSpacesAux false cs
    else if inRun then squashSpacesAux true cs
    else ' ' :: squashSpacesAux true cs

/-- Modelled from the spec: the label half of `makeItemKey` from the
repository's `src/utils.js`, which is not included under `src/` (only the
earlier bundled utilities are).  Per the spec the conflict key is the
case/whitespace-normalized label: lowercase, trimmed, with internal
whitespace runs collapsed (the test suite merges `"HDMI Cable"` with
`"hdmi   cable"`). -/
def normalizeLabel (label : String) : String :=
  String.mk (squashSpacesAux false ((trimChars label.data).map Char.toLower))

/-- The four packing bags of the data model. -/
inductive Bag
  | carryOn
  | checked
  | personal
  | work
deriving DecidableEq, Repr

/-- The string form of a bag, as stored on items. -/
def Bag.name : Bag → String
  | .carryOn => "carryOn"
  | .checked => "checked"
  | .personal => "personal"
  | .work => "work"

/-- Modelled from the spec: `normalizeBagValue` from the repository's
`src/utils.js`, which is not included under `src/`.  Per the spec it is a
fixed-enum normalizer: a recognised bag string maps to that bag and
anything else (including a missing value) to a falsy result; callers
supply the `carryOn` default themselves via `|| 'carryOn'`. -/
def normalizeBagValue : Option String → Option Bag
  | some "carryOn" => some Bag.carryOn
  | some "checked" => some Bag.checked
  | some "personal" => some Bag.personal
  | some "work" => some Bag.work
  | _ => none

/-- Modelled from the spec: `makeItemKey` from the repository's
`src/utils.js`, which is not included under `src/`.  Per the spec the
conflict key is `normalize(label) + "|" + bag`; a missing bag contributes
the empty string. -/
def makeItemKey (label : String) (bag : Option Bag) : String :=
  normalizeLabel label ++ "|" ++ (match bag with | some b => b.name | none => "")

/-- One checklist item, as produced by `createItem`: `quantity` is absent
(`none`) or a positive integer; `bag` is optional only because raw lists
fed to the dedupe engine may carry items that never went through the
factory. -/
structure Item where
  id : String
  group : String
  label : String
  source : String
  checked : Bool
  bag : Option Bag
  quantity : Option Int
deriving DecidableEq, Repr

/-- A raw descriptor as accepted by `createItem`: every field other than
the label may be absent. -/
structure RawItem where
  group : Option String := none
  label : String := ""
  source : Option String := none
  checked : Bool := false
  id : Option String := none
  bag : Option String := none
  qty : Option Int := none
  quantity : Option Int := none
deriving DecidableEq, Repr

/-- `createItem` from `src/src/checklist.js`: trims and validates the
label, defaults the group to `other`, normalizes the bag with a `carryOn`
default, clamps a positive quantity to at most 99 and drops a
non-positive one, and derives a lowercase id from the sanitized source,
the group-label slug and the bag unless an explicit id is supplied. -/
def createItem (raw : RawItem) : Option Item :=
  let trimmedLabel := jsTrim raw.label
  if trimmedLabel = "" then none
  else
    let normalizedGroup := match raw.group with
      | some g => if g = "" then "other" else g
      | none => "other"
    let normalizedBag : Bag := (normalizeBagValue raw.bag).getD Bag.carryOn
    let quantityValue : Option Int := match raw.quantity with
      | some q => some q
      | none => raw.qty
    let normalizedQuantity : Option Int := match quantityValue with
      | some q => if q > 0 then some (min 99 q) else none
      | none => none
    let slug := slugify (normalizedGroup ++ "-" ++ trimmedLabel)
    let sourceTag := match raw.source with
      | some s => if s = "" then "item" else s
      | none => "item"
    let autoId := sanitizeSourceTag sourceTag ++ "-" ++ slug ++ "-" ++ normalizedBag.name
    let chosenId := match raw.id with
      | some i => if i = "" then autoId else i
      | none => autoId
    some {
      id := lowerStr chosenId
      group := normalizedGroup
      label := trimmedLabel
      source := match raw.source with
        | some s => if s = "" then "base" else s
        | none => "base"
      checked := raw.checked
      bag := some normalizedBag
      quantity := normalizedQuantity }

/-- `getConflictKeyFromItem`: the conflict key of an item. -/
def conflictKey (item : Item) : String :=
  makeItemKey item.label item.bag

/-- The merge applied by `dedupeItems` when an incoming item shares its
conflict key with an already-kept item: `checked` is OR-combined, a
`custom` source wins, then a template source, otherwise the existing
source is kept (the JavaScript fallback branch also keeps the existing
source, so both fallbacks coincide); the existing bag is kept unless it
is absent and the incoming one is present; quantities are summed when
both are present, taken from whichever side has one, and left absent when
neither has one. -/
def mergeDedupe (existing item : Item) : Item :=
  { existing with
    checked := existing.checked || item.checked
    source :=
      if item.source = "custom" || existing.source = "custom" then "custom"
      else if strStartsWith item.source "template" then item.source
      else existing.source
    bag := if item.bag.isSome && existing.bag.isNone then item.bag else existing.bag
    quantity := match existing.quantity, item.quantity with
      | some a, some b => some (a + b)
      | none, some b => some b
      | some a, none => some a
      | none, none => none }

/-- Lookup in the insertion-ordered association list that models the
JavaScript `Map` of `dedupeItems`. -/
def findPair (acc : List (String × Item)) (k : String) : Option Item :=
  (acc.find? (fun e => e.1 == k)).map Prod.snd

/-- `Map.set` on a key already present: replace the stored value while
keeping the original insertion position. -/
def setPair (acc : List (String × Item)) (k : String) (v : Item) : List (String × Item) :=
  acc.map (fun e => if e.1 == k then (k, v) else e)

/-- One step of `dedupeItems`: items with an empty label are skipped; a
first occurrence of a conflict key is appended; a repeated occurrence is
merged into the stored entry in place. -/
def dedupeStep (acc : List (String × Item)) (item : Item) : List (String × Item) :=
  if item.label = "" then acc
  else
    let key := conflictKey item
    match findPair acc key with
    | none => acc ++ [(key, item)]
    | some existing => setPair acc key (mergeDedupe existing item)

/-- `dedupeItems` from `src/src/checklist.js`: fold the items through the
keyed map and read the merged items back in first-occurrence order. -/
def dedupeItems (items : List Item) : List Item :=
  (items.foldl dedupeStep []).map Prod.snd

/-- Trip parameters.  `durationDays` is an `Int` because every route into
it (`parseInt` on the form, the share payload, the default 3) produces an
integer. -/
structure Trip where
  city : String := ""
  country : String := ""
  durationDays : Int := 3
  activities : List String := []
  generatedAt : Option String := none
deriving DecidableEq, Repr

/-- The weather snapshot carried in the application state and consumed by
the share codec: numeric fields are integer-valued or absent. -/
structure Weather where
  summary : Option String := none
  tempC : Option Int := none
  minC : Option Int := none
  maxC : Option Int := none
  precipitation : Option Int := none
  lastUpdated : Option String := none
deriving DecidableEq, Repr

/-- The `meta.lastTemplate` badge recorded by `applyTemplate`. -/
structure TemplateBadge where
  id : String
  name : String
  appliedAt : String
  mode : String
deriving DecidableEq, Repr

/-- The application state: trip, ordered item list, optional weather
snapshot, and the last-applied-template badge. -/
structure AppState where
  trip : Trip := {}
  items : List Item := []
  weather : Option Weather := none
  lastTemplate : Option TemplateBadge := none
deriving DecidableEq, Repr

/-- `CHECKLIST_TEMPLATE` from the bundled utilities, in object insertion
order: clothing, tech, documents. -/
def CHECKLIST_TEMPLATE : List (String × List String) :=
  [("clothing", ["Shirt", "Trousers", "Jacket"]),
   ("tech", ["Laptop", "Charger", "Phone"]),
   ("documents", ["Passport", "Tickets", "Insurance"])]

/-- `mapDurationToItems` from the bundled utilities.  `Math.ceil` is the
identity on the integral durations the application produces; for a
positive integer `d`, `Math.ceil(d / 2)` is `(d + 1) / 2`. -/
def mapDurationToItems (days : Int) : List RawItem :=
  let duration : Int := if days > 0 then days else 1
  let socks := toString duration ++ "x Socks"
  let shirts := toString (max ((duration + 1) / 2) 1) ++ "x Casual Shirts"
  let outer := if duration > 4 then "Spare Jacket" else "Light Sweater"
  let tech : List String := if duration > 3 then ["Extension Cord"] else []
  ([socks, shirts, outer].map fun label =>
    { group := some "clothing", label := label, source := some "duration" : RawItem }) ++
  (tech.map fun label =>
    { group := some "tech", label := label, source := some "duration" : RawItem })

/-- `ACTIVITY_ADD_ONS` from `src/src/checklist.js`, with the `?? []`
fallback for unknown activity keys folded in. -/
def activityAddOns : String → List RawItem
  | "pitching" =>
    [{ group := some "tech", label := "Presentation Clicker", source := some "activity:pitching" },
     { group := some "clothing", label := "Formal Outfit", source := some "activity:pitching" }]
  | "clientmeeting" =>
    [{ group := some "documents", label := "Client Briefs", source := some "activity:clientmeeting" },
     { group := some "documents", label := "Business Cards", source := some "activity:clientmeeting" }]
  | "projectwork" =>
    [{ group := some "tech", label := "Notebook & Pens", source := some "activity:projectwork" }]
  | "workshop" =>
    [{ group := some "other", label := "Facilitation Kit", source := some "activity:workshop" }]
  | "networking" =>
    [{ group := some "documents", label := "Extra Business Cards", source := some "activity:networking" }]
  | _ => []

/-- `buildBaseItems`: static template items, duration items and activity
items are created, invalid descriptors are filtered out, and the union is
deduplicated. -/
def buildBaseItems (trip : Trip) : List Item :=
  let base := CHECKLIST_TEMPLATE.flatMap fun gl =>
    gl.2.filterMap fun label =>
      createItem { group := some gl.1, label := label, source := some "base", bag := some "carryOn" }
  let durationItems := (mapDurationToItems trip.durationDays).filterMap createItem
  let activityItems := (trip.activities.flatMap activityAddOns).filterMap createItem
  dedupeItems (base ++ durationItems ++ activityItems)

/-- The keyed map `new Map(items.map(item => [key(item), item]))`: a later
binding for the same key overwrites the earlier one in place. -/
def buildKeyMap (items : List Item) : List (String × Item) :=
  items.foldl
    (fun m i =>
      match findPair m (conflictKey i) with
      | some _ => setPair m (conflictKey i) i
      | none => m ++ [(conflictKey i, i)])
    []

/-- `createWeatherItem`: the descriptor with its source forced to
`weather`. -/
def createWeatherItem (raw : RawItem) : Option Item :=
  createItem { raw with source := some "weather" }

/-- `generateChecklist` from `src/src/checklist.js`.  Base, duration and
activity items are rebuilt from the trip and replaced by the previous
item with the same conflict key when one exists; custom items are carried
over; weather items (fresh descriptors when supplied, otherwise the
currently stored weather items) keep a matching previous item (with the
source forced back to `weather`) and otherwise enter unchecked; the union
is deduplicated.  A fresh weather descriptor with an empty label yields
no item here; in the source it yields `null`, which `dedupeItems` then
skips, with the same result. -/
def generateChecklist (state : AppState) (weatherItems : Option (List RawItem)) : AppState :=
  let prev := buildKeyMap state.items
  let baseItems := (buildBaseItems state.trip).map fun item =>
    match findPair prev (conflictKey item) with
    | some existing => existing
    | none => item
  let customItems := state.items.filter fun i => i.source == "custom"
  let weatherSource := match weatherItems with
    | some ws => ws.filterMap createWeatherItem
    | none => state.items.filter fun i => i.source == "weather"
  let weatherMerged := weatherSource.map fun item =>
    match findPair prev (conflictKey item) with
    | some existing => { existing with source := "weather" }
    | none => { item with checked := false }
  { state with items := dedupeItems (baseItems ++ customItems ++ weatherMerged) }

/-- The tri-state outcome of `ensureUniqueOrMerge`. -/
inductive MergeStatus
  | added
  | merged
  | cancelled
deriving DecidableEq, Repr

/-- The return value of `ensureUniqueOrMerge`: a status plus the item it
reports (absent when the descriptor was invalid). -/
structure MergeOutcome where
  status : MergeStatus
  item : Option Item := none
deriving DecidableEq, Repr

/-- `ensureUniqueOrMerge` from `src/src/checklist.js`.  The synchronous
`window.confirm` gate is passed in as `confirm`.  An invalid descriptor
is cancelled; without a conflict the prepared item is appended through
`dedupeItems`; with a conflict, confirmation adds the candidate quantity
(defaulting to 1) onto the existing quantity (defaulting to 1), and a
decline leaves the state untouched. -/
def ensureUniqueOrMerge (state : AppState) (raw : RawItem) (confirm : Bool) :
    MergeOutcome × AppState :=
  match createItem raw with
  | none => ({ status := .cancelled }, state)
  | some prepared =>
    let key := conflictKey prepared
    match state.items.find? (fun i => conflictKey i == key) with
    | none =>
      ({ status := .added, item := some prepared },
       { state with items := dedupeItems (state.items ++ [prepared]) })
    | some existing =>
      if !confirm then ({ status := .cancelled, item := some existing }, state)
      else
        let addQty := (prepared.quantity).getD 1
        let baseQty := (existing.quantity).getD 1
        let updated := { existing with quantity := some (baseQty + addQty) }
        ({ status := .merged, item := some updated },
         { state with items := state.items.map fun i => if i.id == existing.id then updated else i })

/-- `moveItemToBag` from `src/src/checklist.js`.  An unknown id leaves
the state untouched.  A collision of the moved item's new conflict key
with a different item absorbs the moved item into that conflicting item,
summing quantities with a default of 1 per side; otherwise only the
moved item's bag changes. -/
def moveItemToBag (state : AppState) (itemId : String) (bag : Option String) : AppState :=
  let normalizedBag : Bag := (normalizeBagValue bag).getD Bag.carryOn
  match state.items.find? (fun i => i.id == itemId) with
  | none => state
  | some target =>
    let newKey := makeItemKey target.label (some normalizedBag)
    match state.items.find? (fun i => i.id != itemId && conflictKey i == newKey) with
    | some conflict =>
      let mergedQuantity := (conflict.quantity).getD 1 + (target.quantity).getD 1
      { state with items :=
          (state.items.filter fun i => i.id != itemId).map fun i =>
            if i.id == conflict.id then { i with quantity := some mergedQuantity } else i }
    | none =>
      { state with items :=
          state.items.map fun i => if i.id == itemId then { i with bag := some normalizedBag } else i }

/-- A template as fed to `sanitizeTemplateItems`: raw descriptors under
an id and a name. -/
structure Template where
  id : String := ""
  name : String := ""
  items : List RawItem := []
deriving DecidableEq, Repr

/-- A sanitized template entry. -/
structure TemplateEntry where
  label : String
  group : String
  bag : Option Bag
  qty : Option Int
deriving DecidableEq, Repr

/-- `MAX_TEMPLATE_ITEMS`. -/
def MAX_TEMPLATE_ITEMS : Nat := 500

/-- The per-descriptor part of `sanitizeTemplateItems`: empty labels are
dropped, the group defaults to `other`, the bag is normalized without a
default, and the quantity (`qty` first, then `quantity`) is kept only
when positive, rounded up to at most 99. -/
def sanitizeEntry (raw : RawItem) : Option TemplateEntry :=
  if raw.label = "" then none
  else
    let label := jsTrim raw.label
    if label = "" then none
    else
      let qtyValue : Option Int := match raw.qty with
        | some q => some q
        | none => raw.quantity
      some {
        label := label
        group := match raw.group with
          | some g => if g = "" then "other" else g
          | none => "other"
        bag := normalizeBagValue raw.bag
        qty := match qtyValue with
          | some q => if q > 0 then some (min 99 q) else none
          | none => none }

/-- The keyed dedupe inside `sanitizeTemplateItems`: the first entry for
each conflict key is kept, later ones are skipped. -/
def sanitizeDedup (seen : List String) : List TemplateEntry → List TemplateEntry
  | [] => []
  | e :: es =>
    let key := makeItemKey e.label e.bag
    if key ∈ seen then sanitizeDedup seen es
    else e :: sanitizeDedup (seen ++ [key]) es

/-- `sanitizeTemplateItems` from `src/src/checklist.js`: validate and
normalize the raw descriptors, deduplicate them by conflict key, and cap
the result at `MAX_TEMPLATE_ITEMS`, reporting whether the cap cut
anything off. -/
def sanitizeTemplateItems (template : Template) : List TemplateEntry × Bool :=
  let result := sanitizeDedup [] (template.items.filterMap sanitizeEntry)
  (result.take MAX_TEMPLATE_ITEMS, decide (result.length > MAX_TEMPLATE_ITEMS))

/-- `convertTemplateItem`: a sanitized entry becomes an item sourced from
the template (or the generic `template` source when the id is falsy). -/
def convertTemplateItem (entry : TemplateEntry) (templateId : String) : Option Item :=
  createItem {
    group := some entry.group
    label := entry.label
    bag := entry.bag.map Bag.name
    qty := entry.qty
    source := some (if templateId = "" then "template" else "template:" ++ templateId) }

/-- The replace-mode selection loop of `applyTemplate`: converted items
whose conflict key is already booked (by a retained item or an earlier
template item) are skipped and counted; the others are taken and book
their key. -/
def replacePick (seen : List String) : List Item → List Item × Nat
  | [] => ([], 0)
  | c :: cs =>
    if conflictKey c ∈ seen then
      let r := replacePick seen cs
      (r.1, r.2 + 1)
    else
      let r := replacePick (seen ++ [conflictKey c]) cs
      (c :: r.1, r.2)

/-- The merge-mode selection loop of `applyTemplate`: converted items
whose conflict key already exists are skipped and counted; the others are
appended and book their key. -/
def mergePick (seen : List String) : List Item → List Item × Nat
  | [] => ([], 0)
  | c :: cs =>
    if conflictKey c ∈ seen then
      let r := mergePick seen cs
      (r.1, r.2 + 1)
    else
      let r := mergePick (seen ++ [conflictKey c]) cs
      (c :: r.1, r.2)

/-- The counts returned by `applyTemplate`. -/
structure ApplyCounts where
  added : Nat := 0
  replaced : Nat := 0
  skipped : Nat := 0
  truncated : Bool := false
deriving DecidableEq, Repr

/-- `applyTemplate` from `src/src/checklist.js`.  An empty sanitized list
returns early without touching the state.  In merge mode, template items
not yet present by conflict key are appended.  In any other mode
(`replace`), items that are neither custom- nor weather-sourced are
dropped, and template items that do not collide with a retained key are
prepended; either way the final list runs through `dedupeItems` and the
badge records the application at the caller-supplied timestamp `now`. -/
def applyTemplate (state : AppState) (template : Template) (mode : String) (now : String) :
    ApplyCounts × AppState :=
  let sanitized := sanitizeTemplateItems template
  if sanitized.1.isEmpty then
    ({ truncated := sanitized.2 }, state)
  else
    let converted := sanitized.1.filterMap fun entry => convertTemplateItem entry template.id
    let existing := state.items
    let result :=
      if mode = "merge" then
        let picked := mergePick (existing.map conflictKey) converted
        ({ added := picked.1.length, skipped := picked.2, truncated := sanitized.2 : ApplyCounts },
         dedupeItems (existing ++ picked.1))
      else
        let retained := existing.filter fun i => i.source == "custom" || i.source == "weather"
        let replaced := existing.length - retained.length
        let picked := replacePick (retained.map conflictKey) converted
        ({ added := picked.1.length, replaced := replaced, skipped := picked.2,
           truncated := sanitized.2 : ApplyCounts },
         dedupeItems (picked.1 ++ retained))
    (result.1,
     { state with
        items := result.2
        lastTemplate := some {
          id := template.id, name := template.name, appliedAt := now, mode := mode } })

/-- The first built-in template, `builtin:overnight-pitch`. -/
def overnightPitch : Template :=
  { id := "builtin:overnight-pitch"
    name := "Overnight Pitch"
    items := [
      { label := "Slim Suit", group := some "clothing", bag := some "carryOn" },
      { label := "Dress Shoes", group := some "clothing", bag := some "carryOn" },
      { label := "Presentation Deck (USB)", group := some "tech", bag := some "work" },
      { label := "Business Cards", group := some "documents", bag := some "work" },
      { label := "Lightweight Toiletry Kit", group := some "other", bag := some "carryOn" }] }

/-- The weather snapshot shape read by `mapWeatherToItems`: each numeric
field is a finite number or absent. -/
structure WSnapshot where
  precipitation : Option Rat := none
  precipitation_sum : Option Rat := none
  rain : Option Rat := none
  minC : Option Rat := none
  temperatureMin : Option Rat := none
  low : Option Rat := none
  maxC : Option Rat := none
  temperatureMax : Option Rat := none
  high : Option Rat := none
deriving DecidableEq, Repr

/-- `pickFirstNumber`: the first present (finite) value. -/
def pickFirstNumber : List (Option Rat) → Option Rat
  | [] => none
  | some v :: _ => some v
  | none :: rest => pickFirstNumber rest

/-- A weather checklist descriptor, as pushed by `mapWeatherToItems`. -/
def weatherDescriptor (group label : String) : RawItem :=
  { group := some group, label := label, source := some "weather" }

/-- The `group:lowercased-label` key used by `dedupeByLabel`; a missing
group would stringify as `undefined` in the template literal. -/
def labelKey (item : RawItem) : String :=
  (match item.group with | some g => g | none => "undefined") ++ ":" ++ lowerStr item.label

/-- `dedupeByLabel`: keep only the first descriptor for each
group/lowercased-label key. -/
def dedupeByLabelAux (seen : List String) : List RawItem → List RawItem
  | [] => []
  | i :: is =>
    if labelKey i ∈ seen then dedupeByLabelAux seen is
    else i :: dedupeByLabelAux (seen ++ [labelKey i]) is

/-- `mapWeatherToItems` from the bundled utilities: Umbrella and Raincoat
for positive precipitation, Gloves and Wool Beanie below 5 degrees,
Sunscreen and Sunglasses above 24 degrees, nothing for a missing
snapshot, deduplicated by label at the end. -/
def mapWeatherToItems (weather : Option WSnapshot) : List RawItem :=
  match weather with
  | none => []
  | some w =>
    let precipitation := pickFirstNumber [w.precipitation, w.precipitation_sum, w.rain]
    let minTemp := pickFirstNumber [w.minC, w.temperatureMin, w.low]
    let maxTemp := pickFirstNumber [w.maxC, w.temperatureMax, w.high]
    let items :=
      (match precipitation with
       | some p =>
         if p > 0 then
           [weatherDescriptor "other" "Umbrella", weatherDescriptor "clothing" "Raincoat"]
         else []
       | none => []) ++
      (match minTemp with
       | some t =>
         if t < 5 then
           [weatherDescriptor "clothing" "Gloves", weatherDescriptor "clothing" "Wool Beanie"]
         else []
       | none => []) ++
      (match maxTemp with
       | some t =>
         if t > 24 then
           [weatherDescriptor "other" "Sunscreen", weatherDescriptor "other" "Sunglasses"]
         else []
       | none => [])
    dedupeByLabelAux [] items

/-- JSON values.  Numbers carry their exact decimal value as a rational
(the float64 rounding `JSON.parse` applies to extreme magnitudes is not
modelled); every number the application itself places into a share
payload (version, duration, checked flag, integer-valued weather fields)
is an integer. -/
inductive Json
  | null
  | bool (b : Bool)
  | num (n : Rat)
  | str (s : String)
  | arr (elems : List Json)
  | obj (fields : List (String × Json))

/-- The characters that `JSON.stringify` emits for one string
character. -/
def escapeChar (c : Char) : List Char :=
  let bs := Char.ofNat 92
  if c == Char.ofNat 34 then [bs, Char.ofNat 34]
  else if c == bs then [bs, bs]
  else if c == Char.ofNat 10 then [bs, 'n']
  else if c == Char.ofNat 13 then [bs, 'r']
  else if c == Char.ofNat 9 then [bs, 't']
  else if c == Char.ofNat 8 then [bs, 'b']
  else if c == Char.ofNat 12 then [bs, 'f']
  else if c.toNat < 32 then
    let hex := "0123456789abcdef".data
    [bs, 'u', '0', '0', hex.getD (c.toNat / 16) '0', hex.getD (c.toNat % 16) '0']
  else [c]

/-- `JSON.stringify` of a string. -/
def renderString (s : String) : String :=
  String.mk (Char.ofNat 34 :: s.data.flatMap escapeChar ++ [Char.ofNat 34])

/-- The decimal digits of a natural number, most significant first; the
fuel only has to exceed the number of digits (`n + 1` always does), which
keeps the recursion structural. -/
def natDigitsCore : Nat → Nat → List Char → List Char
  | 0, _, acc => acc
  | fuel + 1, n, acc =>
    if n < 10 then Char.ofNat (48 + n) :: acc
    else natDigitsCore fuel (n / 10) (Char.ofNat (48 + n % 10) :: acc)

/-- The decimal digits of a natural number. -/
def natDigits (n : Nat) : List Char :=
  natDigitsCore (n + 1) n []

/-- The decimal rendering of an integer. -/
def intDigits (n : Int) : List Char :=
  if n < 0 then '-' :: natDigits n.natAbs else natDigits n.natAbs

/-- `JSON.stringify` of a number.  Every number the application ever
stringifies is integer-valued (the payload version, the trip duration,
the 0/1 checked flag and the integer weather fields), and an integer
prints as its decimal digits; the shortest-float notation `String(n)`
would use for a non-integral value is outside the payloads in scope and
not modelled (such a value is rendered through its numerator alone). -/
def renderNum (q : Rat) : String :=
  String.mk (intDigits q.num)

mutual

/-- `JSON.stringify` (no spacing) of a JSON value. -/
def Json.render : Json → String
  | .null => "null"
  | .bool true => "true"
  | .bool false => "false"
  | .num n => renderNum n
  | .str s => renderString s
  | .arr elems => "[" ++ renderElems elems ++ "]"
  | .obj fields => "\x7b" ++ renderFields fields ++ "\x7d"

/-- Comma-separated rendering of array elements. -/
def renderElems : List Json → String
  | [] => ""
  | [x] => Json.render x
  | x :: xs => Json.render x ++ "," ++ renderElems xs

/-- Comma-separated rendering of object members. -/
def renderFields : List (String × Json) → String
  | [] => ""
  | [kv] => renderString kv.1 ++ ":" ++ Json.render kv.2
  | kv :: kvs => renderString kv.1 ++ ":" ++ Json.render kv.2 ++ "," ++ renderFields kvs

end

/-- Skips JSON whitespace. -/
def skipWs (l : List Char) : List Char :=
  l.dropWhile fun c => c == ' ' || c == Char.ofNat 9 || c == Char.ofNat 10 || c == Char.ofNat 13

/-- The value of one hexadecimal digit. -/
def hexVal (c : Char) : Option Nat :=
  if c.isDigit then some (c.toNat - 48)
  else if 'a' ≤ c ∧ c ≤ 'f' then some (c.toNat - 87)
  else if 'A' ≤ c ∧ c ≤ 'F' then some (c.toNat - 55)
  else none

/-- A single-character JSON escape. -/
def unescapeChar (c : Char) : Option Char :=
  if c == Char.ofNat 34 then some (Char.ofNat 34)
  else if c == Char.ofNat 92 then some (Char.ofNat 92)
  else if c == '/' then some '/'
  else if c == 'n' then some (Char.ofNat 10)
  else if c == 't' then some (Char.ofNat 9)
  else if c == 'r' then some (Char.ofNat 13)
  else if c == 'b' then some (Char.ofNat 8)
  else if c == 'f' then some (Char.ofNat 12)
  else none

/-- Parses the body of a JSON string literal (after the opening quote),
returning the characters and the remaining input.  A raw control
character below U+0020 is a syntax error; a `\u` escape accepts any four
hex digits, exactly as `JSON.parse` does (an escape naming a lone
surrogate yields a value `Char` cannot carry and degrades to U+0000 via
`Char.ofNat`; whether the literal parses is unaffected). -/
def parseStrChars : List Char → Option (List Char × List Char)
  | [] => none
  | c :: rest =>
    if c == Char.ofNat 34 then some ([], rest)
    else if c == Char.ofNat 92 then
      match rest with
      | e :: rest2 =>
        if e == 'u' then
          match rest2 with
          | h1 :: h2 :: h3 :: h4 :: rest3 => do
            let v1 ← hexVal h1
            let v2 ← hexVal h2
            let v3 ← hexVal h3
            let v4 ← hexVal h4
            let r ← parseStrChars rest3
            pure (Char.ofNat (v1 * 4096 + v2 * 256 + v3 * 16 + v4) :: r.1, r.2)
          | _ => none
        else do
          let d ← unescapeChar e
          let r ← parseStrChars rest2
          pure (d :: r.1, r.2)
      | [] => none
    else if c.toNat < 32 then none
    else do
      let r ← parseStrChars rest
      pure (c :: r.1, r.2)

/-- The numeric value of a run of decimal digits. -/
def digitsVal (ds : List Char) : Nat :=
  ds.foldl (fun a c => a * 10 + (c.toNat - 48)) 0

/-- Parses a JSON number: an optional minus, an integer part (`0`, or a
run led by a nonzero digit), an optional fraction and an optional
exponent, yielding the exact decimal value (the float64 rounding
`JSON.parse` applies is not modelled).  After a leading `0` the integer
part stops, so `01` leaves a trailing digit no caller can consume —
exactly the syntax error `JSON.parse` raises. -/
def parseJsonNumber (l : List Char) : Option (Json × List Char) := do
  let (neg, l1) := match l with
    | '-' :: rest => (true, rest)
    | rest => (false, rest)
  let (ip, l2) ← match l1 with
    | '0' :: rest => some ((0 : Nat), rest)
    | c :: _ =>
      if c.isDigit then
        let ds := l1.takeWhile Char.isDigit
        some (digitsVal ds, l1.drop ds.length)
      else none
    | [] => none
  let (fnum, fden, l3) ← match l2 with
    | '.' :: r =>
      let fs := r.takeWhile Char.isDigit
      if fs.isEmpty then none
      else some (digitsVal fs, (10 : Nat) ^ fs.length, r.drop fs.length)
    | _ => some (0, 1, l2)
  let (emag, eneg, l4) ← match l3 with
    | c :: r =>
      if c == 'e' || c == 'E' then
        let (eneg, r2) := match r with
          | '+' :: rr => (false, rr)
          | '-' :: rr => (true, rr)
          | rr => (false, rr)
        let es := r2.takeWhile Char.isDigit
        if es.isEmpty then none
        else some (digitsVal es, eneg, r2.drop es.length)
      else some (0, false, l3)
    | [] => some (0, false, l3)
  let base : Rat := (ip : Rat) + (fnum : Rat) / (fden : Rat)
  let mag : Rat := if eneg then base / (10 : Rat) ^ emag else base * (10 : Rat) ^ emag
  pure (Json.num (if neg then -mag else mag), l4)

mutual

/-- Fuel-driven parser for one JSON value. -/
def parseValue : Nat → List Char → Option (Json × List Char)
  | 0, _ => none
  | fuel + 1, input =>
    match skipWs input with
    | [] => none
    | c :: rest =>
      if c == Char.ofNat 34 then
        (parseStrChars rest).map fun r => (Json.str (String.mk r.1), r.2)
      else if c == 't' then
        match rest with
        | 'r' :: 'u' :: 'e' :: r2 => some (Json.bool true, r2)
        | _ => none
      else if c == 'f' then
        match rest with
        | 'a' :: 'l' :: 's' :: 'e' :: r2 => some (Json.bool false, r2)
        | _ => none
      else if c == 'n' then
        match rest with
        | 'u' :: 'l' :: 'l' :: r2 => some (Json.null, r2)
        | _ => none
      else if c == '[' then
        (parseElems fuel rest true).map fun r => (Json.arr r.1, r.2)
      else if c == Char.ofNat 123 then
        (parseMembers fuel rest true).map fun r => (Json.obj r.1, r.2)
      else parseJsonNumber (c :: rest)

/-- Fuel-driven parser for the elements of a JSON array, after the
opening bracket (`atStart`) or after a comma. -/
def parseElems : Nat → List Char → Bool → Option (List Json × List Char)
  | 0, _, _ => none
  | fuel + 1, input, atStart =>
    let l := skipWs input
    match l with
    | ']' :: rest => if atStart then some ([], rest) else none
    | _ => do
      let (v, l2) ← parseValue fuel l
      match skipWs l2 with
      | ',' :: r => (parseElems fuel r false).map fun p => (v :: p.1, p.2)
      | ']' :: r => some ([v], r)
      | _ => none

/-- Fuel-driven parser for the members of a JSON object, after the
opening brace (`atStart`) or after a comma. -/
def parseMembers : Nat → List Char → Bool → Option (List (String × Json) × List Char)
  | 0, _, _ => none
  | fuel + 1, input, atStart =>
    let l := skipWs input
    match l with
    | c :: rest =>
      if c == Char.ofNat 125 then
        if atStart then some ([], rest) else none
      else if c == Char.ofNat 34 then do
        let (k, l2) ← parseStrChars rest
        match skipWs l2 with
        | ':' :: l3 => do
          let (v, l4) ← parseValue fuel l3
          match skipWs l4 with
          | ',' :: r => (parseMembers fuel r false).map fun p => ((String.mk k, v) :: p.1, p.2)
          | c2 :: r => if c2 == Char.ofNat 125 then some ([(String.mk k, v)], r) else none
          | [] => none
        | _ => none
      else none
    | [] => none

end

/-- Leftover input that cannot extend a just-parsed number token: empty,
or led by something that is neither a digit, a decimal point nor an
exponent letter. -/
def numSafe : List Char → Prop
  | [] => True
  | c :: _ => c.isDigit = false ∧ c ≠ '.' ∧ c ≠ 'e' ∧ c ≠ 'E'

/-- The characters a rendered JSON value can start with. -/
def tokenStart (c : Char) : Prop :=
  c = Char.ofNat 34 ∨ c = 't' ∨ c = 'f' ∨ c = 'n' ∨ c = '[' ∨
    c = Char.ofNat 123 ∨ c = '-' ∨ c.isDigit = true

mutual

/-- A fuel bound under which `parseValue` re-parses a rendered value. -/
def jsonFuel : Json → Nat
  | .arr es => jsonFuelElems es + 1
  | .obj fs => jsonFuelFields fs + 1
  | _ => 1

/-- The fuel bound for an element list. -/
def jsonFuelElems : List Json → Nat
  | [] => 1
  | x :: xs => jsonFuel x + jsonFuelElems xs + 1

/-- The fuel bound for a member list. -/
def jsonFuelFields : List (String × Json) → Nat
  | [] => 1
  | kv :: fs => jsonFuel kv.2 + jsonFuelFields fs + 1

end

mutual

/-- Every number of the value is an integer (denominator 1) — true of
every payload the application builds, and exactly the values whose
rendering re-parses to themselves. -/
def intValued : Json → Prop
  | .num n => n.den = 1
  | .arr es => intValuedElems es
  | .obj fs => intValuedFields fs
  | _ => True

/-- `intValued` over an element list. -/
def intValuedElems : List Json → Prop
  | [] => True
  | x :: xs => intValued x ∧ intValuedElems xs

/-- `intValued` over a member list. -/
def intValuedFields : List (String × Json) → Prop
  | [] => True
  | kv :: fs => intValued kv.2 ∧ intValuedFields fs

end

/-- The conflict keys of an item list, in order. -/
def itemKeys (items : List Item) : List String :=
  items.map conflictKey

/-- The stored keys of the dedupe map. -/
def entryKeys (acc : List (String × Item)) : List String :=
  acc.map Prod.fst

/-- Appends a key unless it is already present: folding a key list
through this from the empty list yields the keys in first-occurrence
order. -/
def insertKey (ks : List String) (k : String) : List String :=
  if k ∈ ks then ks else ks ++ [k]

/-- The distinct keys of a list in first-occurrence order. -/
def firstOccurrenceKeys (ks : List String) : List String :=
  ks.foldl insertKey []

/-- The items of a list that `dedupeItems` folds into the entry for key
`k`: non-empty label and that conflict key. -/
def groupOf (k : String) (items : List Item) : List Item :=
  items.filter fun i => (i.label != "") && (conflictKey i == k)

/-- A state whose only item is a checked-off custom Shirt with quantity 2
sharing its conflict key with the generated base Shirt. -/
def cexGenerateState : AppState :=
  { trip := { durationDays := 3 }
    items := [
      { id := "custom-clothing-shirt-carryon", group := "clothing", label := "Shirt",
        source := "custom", checked := false, bag := some Bag.carryOn, quantity := some 2 }] }

/-- A checked custom item, for the regeneration witness. -/
def wGenItem : Item :=
  { id := "custom-other-travel-pillow-carryon", group := "other", label := "Travel Pillow",
    source := "custom", checked := true, bag := some Bag.carryOn, quantity := none }

/-- A state with one checked custom item, for the regeneration witness. -/
def wGenState : AppState :=
  { trip := { durationDays := 3 }, items := [wGenItem] }

/-- The raw custom HDMI Cable descriptor of the duplicate-add scenario. -/
def wMergeRaw : RawItem :=
  { label := "HDMI Cable", group := some "tech", source := some "custom", bag := some "carryOn" }

/-- The same label written with different case and spacing. -/
def wMergeRaw2 : RawItem :=
  { label := "hdmi   cable", group := some "tech", source := some "custom", bag := some "carryOn" }

/-- The item `createItem` makes of `wMergeRaw`. -/
def wHdmiItem : Item :=
  { id := "custom-tech-hdmi-cable-carryon", group := "tech", label := "HDMI Cable",
    source := "custom", checked := false, bag := some Bag.carryOn, quantity := none }

/-- The state after the first add of the scenario. -/
def wMergeState : AppState :=
  (ensureUniqueOrMerge {} wMergeRaw true).2

/-- Two same-label items in different bags, for the bag-move scenario. -/
def wMoveState : AppState :=
  { items := [
      { id := "i1", group := "tech", label := "Cable", source := "custom",
        checked := false, bag := some Bag.carryOn, quantity := some 2 },
      { id := "i2", group := "tech", label := "cable", source := "custom",
        checked := true, bag := some Bag.work, quantity := some 3 }] }

/-- The bag-move scenario with both quantities absent. -/
def wMoveStateNoQty : AppState :=
  { items := [
      { id := "i1", group := "tech", label := "Cable", source := "custom",
        checked := false, bag := some Bag.carryOn, quantity := none },
      { id := "i2", group := "tech", label := "cable", source := "custom",
        checked := true, bag := some Bag.work, quantity := none }] }

/-- Two same-key items carrying quantities 2 and 3. -/
def wQtyA : Item :=
  { id := "a", group := "clothing", label := "Socks", source := "base",
    checked := false, bag := some Bag.carryOn, quantity := some 2 }

/-- The partner of `wQtyA`, written in lowercase. -/
def wQtyB : Item :=
  { id := "b", group := "clothing", label := "socks", source := "duration",
    checked := true, bag := some Bag.carryOn, quantity := some 3 }

/-- Two same-key items with no quantity at all. -/
def wNoQtyA : Item :=
  { id := "a", group := "tech", label := "Adapter", source := "custom",
    checked := false, bag := some Bag.carryOn, quantity := none }

/-- The partner of `wNoQtyA`. -/
def wNoQtyB : Item :=
  { id := "b", group := "tech", label := "adapter", source := "custom",
    checked := false, bag := some Bag.carryOn, quantity := none }

/-- A state holding only `wNoQtyA`. -/
def wNoQtyState : AppState :=
  { items := [wNoQtyA] }

/-- A descriptor whose label matches `wNoQtyA` up to case, with no
quantity. -/
def wNoQtyRaw : RawItem :=
  { label := "ADAPTER", group := some "tech", source := some "custom", bag := some "carryOn" }

/-- The item `createItem` makes of `wNoQtyRaw`. -/
def wNoQtyPrepared : Item :=
  { id := "custom-tech-adapter-carryon", group := "tech", label := "ADAPTER",
    source := "custom", checked := false, bag := some Bag.carryOn, quantity := none }

/-- The item `createItem` makes of `wMergeRaw2`. -/
def wHdmiItem2 : Item :=
  { id := "custom-tech-hdmi-cable-carryon", group := "tech", label := "hdmi   cable",
    source := "custom", checked := false, bag := some Bag.carryOn, quantity := none }

/-! ### Properties of the dedupe engine -/

theorem bagName_ne_nil (b : Bag) : b.name.data ≠ [] := by
  cases b <;> decide

theorem makeItemKey_data_none (l : String) :
    (makeItemKey l none).data = (normalizeLabel l).data ++ ['|'] := by
  simp [makeItemKey]

theorem makeItemKey_data_some (l : String) (b : Bag) :
    (makeItemKey l (some b)).data = (normalizeLabel l).data ++ '|' :: b.name.data := by
  simp [makeItemKey]

theorem makeItemKey_none_ne_some (l1 l2 : String) (b : Bag) :
    makeItemKey l1 none ≠ makeItemKey l2 (some b) := by
  intro h
  have hd := congrArg String.data h
  rw [makeItemKey_data_none, makeItemKey_data_some] at hd
  have hlast := congrArg List.getLast? hd
  rw [List.getLast?_append, List.getLast?_append] at hlast
  cases b <;> simp [Bag.name] at hlast

theorem mergeDedupe_label (e i : Item) : (mergeDedupe e i).label = e.label := rfl

theorem mergeDedupe_id (e i : Item) : (mergeDedupe e i).id = e.id := rfl

theorem mergeDedupe_group (e i : Item) : (mergeDedupe e i).group = e.group := rfl

theorem mergeDedupe_checked (e i : Item) :
    (mergeDedupe e i).checked = (e.checked || i.checked) := rfl

theorem mergeDedupe_key (e i : Item) (h : conflictKey e = conflictKey i) :
    conflictKey (mergeDedupe e i) = conflictKey e := by
  by_cases hb : (i.bag.isSome && e.bag.isNone) = true
  · exfalso
    have hparts := Bool.and_eq_true_iff.mp hb
    have he : e.bag = none := Option.isNone_iff_eq_none.mp hparts.2
    obtain ⟨b, hib⟩ := Option.isSome_iff_exists.mp hparts.1
    rw [conflictKey, conflictKey, he, hib] at h
    exact makeItemKey_none_ne_some e.label i.label b h
  · simp only [conflictKey, mergeDedupe, hb]
    rfl

theorem entryKeys_nil : entryKeys [] = [] := rfl

theorem entryKeys_cons (e : String × Item) (t : List (String × Item)) :
    entryKeys (e :: t) = e.1 :: entryKeys t := rfl

theorem findPair_nil (k : String) : findPair [] k = none := rfl

theorem findPair_cons (e : String × Item) (t : List (String × Item)) (k : String) :
    findPair (e :: t) k = if e.1 = k then some e.2 else findPair t k := by
  by_cases h : e.1 = k
  · have hb : (e.1 == k) = true := by simpa [beq_iff_eq] using h
    simp [findPair, List.find?, hb, h]
  · have hb : (e.1 == k) = false := by simpa [beq_iff_eq] using h
    simp [findPair, List.find?, hb, h]

theorem setPair_nil (k : String) (v : Item) : setPair [] k v = [] := rfl

theorem setPair_cons (e : String × Item) (t : List (String × Item)) (k : String) (v : Item) :
    setPair (e :: t) k v = (if e.1 = k then (k, v) else e) :: setPair t k v := by
  by_cases h : e.1 = k
  · have hb : (e.1 == k) = true := by simpa [beq_iff_eq] using h
    simp [setPair, hb, h]
  · have hb : (e.1 == k) = false := by simpa [beq_iff_eq] using h
    simp [setPair, hb, h]

theorem findPair_eq_none {acc : List (String × Item)} {k : String} :
    findPair acc k = none ↔ k ∉ entryKeys acc := by
  induction acc with
  | nil => simp [findPair_nil, entryKeys_nil]
  | cons e t ih =>
    rw [findPair_cons, entryKeys_cons]
    by_cases he : e.1 = k
    · simp [he]
    · simp only [he, if_false, List.mem_cons, ih]
      constructor
      · intro h hm
        rcases hm with hm | hm
        · exact he hm.symm
        · exact h hm
      · intro h hm
        exact h (Or.inr hm)

theorem mem_of_findPair_eq_some {acc : List (String × Item)} {k : String} {v : Item}
    (h : findPair acc k = some v) : k ∈ entryKeys acc := by
  by_contra hk
  rw [← findPair_eq_none] at hk
  simp [hk] at h

theorem entryKeys_setPair (acc : List (String × Item)) (k : String) (v : Item) :
    entryKeys (setPair acc k v) = entryKeys acc := by
  induction acc with
  | nil => rfl
  | cons e t ih =>
    rw [setPair_cons, entryKeys_cons, entryKeys_cons, ih]
    by_cases he : e.1 = k
    · simp [he]
    · simp [he]

theorem findPair_setPair_self {acc : List (String × Item)} {k : String} (v : Item)
    (h : k ∈ entryKeys acc) : findPair (setPair acc k v) k = some v := by
  induction acc with
  | nil => simp [entryKeys_nil] at h
  | cons e t ih =>
    rw [setPair_cons, findPair_cons]
    by_cases he : e.1 = k
    · simp [he]
    · have ht : k ∈ entryKeys t := by
        rw [entryKeys_cons, List.mem_cons] at h
        rcases h with h | h
        · exact absurd h.symm he
        · exact h
      simpa [he] using ih ht

theorem findPair_setPair_ne {acc : List (String × Item)} {k k' : String} (v : Item)
    (h : k' ≠ k) : findPair (setPair acc k v) k' = findPair acc k' := by
  induction acc with
  | nil => rfl
  | cons e t ih =>
    rw [setPair_cons, findPair_cons, findPair_cons]
    by_cases he : e.1 = k
    · have h1 : ¬ k = k' := fun hk => h hk.symm
      have h2 : ¬ e.1 = k' := he ▸ h1
      simp [he, h1, h2, ih]
    · by_cases h3 : e.1 = k'
      · have h4 : ¬ k' = k := h
        simp [he, h3, h4]
      · simp [he, h3, ih]

theorem findPair_append_single (acc : List (String × Item)) (k k' : String) (v : Item) :
    findPair (acc ++ [(k, v)]) k' =
      match findPair acc k' with
      | some x => some x
      | none => if k = k' then some v else none := by
  induction acc with
  | nil =>
    simp only [List.nil_append, findPair_cons, findPair_nil]
  | cons e t ih =>
    rw [List.cons_append, findPair_cons, findPair_cons]
    by_cases he : e.1 = k'
    · simp [he]
    · simp [he, ih]


theorem findPair_some_pair_mem {acc : List (String × Item)} {k : String} {v : Item}
    (h : findPair acc k = some v) : (k, v) ∈ acc := by
  induction acc with
  | nil => simp [findPair_nil] at h
  | cons e t ih =>
    rw [findPair_cons] at h
    by_cases he : e.1 = k
    · rw [if_pos he] at h
      have : v = e.2 := by simpa using h.symm
      subst this
      rw [← he]
      exact List.mem_cons_self _ _
    · rw [if_neg he] at h
      exact List.mem_cons_of_mem _ (ih h)

theorem findPair_of_mem_nodup {acc : List (String × Item)}
    (hnd : (entryKeys acc).Nodup) {e : String × Item} (he : e ∈ acc) :
    findPair acc e.1 = some e.2 := by
  induction acc with
  | nil => simp at he
  | cons a t ih =>
    rw [entryKeys_cons, List.nodup_cons] at hnd
    rw [findPair_cons]
    rcases List.mem_cons.mp he with rfl | hm
    · simp
    · have hne : a.1 ≠ e.1 := by
        intro hk
        exact hnd.1 (hk ▸ (List.mem_map.mpr ⟨e, hm, rfl⟩))
      rw [if_neg hne]
      exact ih hnd.2 hm

theorem dedupeStep_skip {acc : List (String × Item)} {i : Item} (h : i.label = "") :
    dedupeStep acc i = acc := by
  simp [dedupeStep, h]

theorem dedupeStep_append {acc : List (String × Item)} {i : Item} (h : ¬ i.label = "")
    (hf : findPair acc (conflictKey i) = none) :
    dedupeStep acc i = acc ++ [(conflictKey i, i)] := by
  simp [dedupeStep, h, hf]

theorem dedupeStep_merge {acc : List (String × Item)} {i e : Item} (h : ¬ i.label = "")
    (hf : findPair acc (conflictKey i) = some e) :
    dedupeStep acc i = setPair acc (conflictKey i) (mergeDedupe e i) := by
  simp [dedupeStep, h, hf]

theorem entryKeys_append (a b : List (String × Item)) :
    entryKeys (a ++ b) = entryKeys a ++ entryKeys b := by
  simp [entryKeys]

theorem foldl_dedupeStep_keys (l : List Item) :
    ∀ acc, entryKeys (l.foldl dedupeStep acc) =
      ((l.filter fun i => i.label != "").map conflictKey).foldl insertKey (entryKeys acc) := by
  induction l with
  | nil => intro acc; rfl
  | cons i l ih =>
    intro acc
    rw [List.foldl_cons]
    by_cases hl : i.label = ""
    · have hf : (i.label != "") = false := by simp [hl]
      rw [dedupeStep_skip hl, List.filter_cons, hf]
      simp only [Bool.false_eq_true, if_false]
      exact ih acc
    · have hf : (i.label != "") = true := by simp [hl]
      rw [List.filter_cons, hf]
      simp only [if_true, List.map_cons, List.foldl_cons]
      cases hfind : findPair acc (conflictKey i) with
      | none =>
        rw [dedupeStep_append hl hfind, ih]
        have hmem : conflictKey i ∉ entryKeys acc := findPair_eq_none.mp hfind
        congr 1
        rw [entryKeys_append, insertKey, if_neg hmem]
        rfl
      | some e =>
        rw [dedupeStep_merge hl hfind, ih, entryKeys_setPair]
        have hmem : conflictKey i ∈ entryKeys acc := mem_of_findPair_eq_some hfind
        congr 1
        rw [insertKey, if_pos hmem]

theorem groupOf_cons_skip {k : String} {i : Item} (l : List Item) (h : i.label = "") :
    groupOf k (i :: l) = groupOf k l := by
  simp [groupOf, List.filter_cons, h]

theorem groupOf_cons_ne {k : String} {i : Item} (l : List Item) (h : ¬ conflictKey i = k) :
    groupOf k (i :: l) = groupOf k l := by
  have : (conflictKey i == k) = false := by simpa using h
  simp [groupOf, List.filter_cons, this]

theorem groupOf_cons_hit {k : String} {i : Item} (l : List Item) (hl : ¬ i.label = "")
    (hk : conflictKey i = k) : groupOf k (i :: l) = i :: groupOf k l := by
  have h1 : (i.label != "") = true := by simp [hl]
  have h2 : (conflictKey i == k) = true := by simpa using hk
  simp [groupOf, List.filter_cons, h1, h2]

theorem foldl_dedupeStep_find (l : List Item) :
    ∀ acc k, findPair (l.foldl dedupeStep acc) k =
      match findPair acc k with
      | some v => some ((groupOf k l).foldl mergeDedupe v)
      | none =>
        match groupOf k l with
        | [] => none
        | h :: t => some (t.foldl mergeDedupe h) := by
  induction l with
  | nil =>
    intro acc k
    cases hf : findPair acc k <;> simp [groupOf, hf]
  | cons i l ih =>
    intro acc k
    rw [List.foldl_cons]
    by_cases hl : i.label = ""
    · rw [dedupeStep_skip hl, groupOf_cons_skip l hl]
      exact ih acc k
    · by_cases hk : conflictKey i = k
      · rw [groupOf_cons_hit l hl hk]
        cases hfind : findPair acc (conflictKey i) with
        | none =>
          have hfind2 : findPair acc k = none := hk ▸ hfind
          rw [dedupeStep_append hl hfind, ih]
          have hacc : findPair (acc ++ [(conflictKey i, i)]) k = some i := by
            rw [findPair_append_single, hfind2, if_pos hk]
          rw [hacc, hfind2]
        | some e =>
          have hfind2 : findPair acc k = some e := hk ▸ hfind
          rw [dedupeStep_merge hl hfind, ih]
          have hacc : findPair (setPair acc (conflictKey i) (mergeDedupe e i)) k
              = some (mergeDedupe e i) := by
            rw [hk]
            exact findPair_setPair_self _ (mem_of_findPair_eq_some hfind2)
          rw [hacc, hfind2]
          rfl
      · rw [groupOf_cons_ne l hk]
        cases hfind : findPair acc (conflictKey i) with
        | none =>
          rw [dedupeStep_append hl hfind, ih]
          have hacc : findPair (acc ++ [(conflictKey i, i)]) k = findPair acc k := by
            rw [findPair_append_single]
            cases hf2 : findPair acc k
            · rw [if_neg hk]
            · rfl
          rw [hacc]
        | some e =>
          rw [dedupeStep_merge hl hfind, ih]
          have hacc : findPair (setPair acc (conflictKey i) (mergeDedupe e i)) k
              = findPair acc k :=
            findPair_setPair_ne _ (fun h => hk h.symm)
          rw [hacc]

theorem foldl_dedupeStep_inv (l : List Item) :
    ∀ acc, (∀ e ∈ acc, conflictKey e.2 = e.1) →
      ∀ e ∈ l.foldl dedupeStep acc, conflictKey e.2 = e.1 := by
  induction l with
  | nil => intro acc h; exact h
  | cons i l ih =>
    intro acc h
    rw [List.foldl_cons]
    apply ih
    by_cases hl : i.label = ""
    · rw [dedupeStep_skip hl]; exact h
    · cases hfind : findPair acc (conflictKey i) with
      | none =>
        rw [dedupeStep_append hl hfind]
        intro e he
        rcases List.mem_append.mp he with hm | hm
        · exact h e hm
        · rcases List.mem_singleton.mp hm with rfl
          rfl
      | some efound =>
        rw [dedupeStep_merge hl hfind]
        intro e he
        rcases List.mem_map.mp he with ⟨a, ha, rfl⟩
        by_cases hak : a.1 = conflictKey i
        · have hb : (a.1 == conflictKey i) = true := by simpa using hak
          simp only [hb, if_true]
          have hkey : conflictKey efound = conflictKey i := by
            have hmem := findPair_some_pair_mem hfind
            exact h _ hmem
          rw [mergeDedupe_key efound i hkey, hkey]
        · have hb : (a.1 == conflictKey i) = false := by simpa using hak
          simp only [hb, Bool.false_eq_true, if_false]
          exact h a ha

theorem dedupeItems_inv (items : List Item) :
    ∀ e ∈ items.foldl dedupeStep [], conflictKey e.2 = e.1 :=
  foldl_dedupeStep_inv items [] (by simp)

theorem entryKeys_final_nodup (items : List Item) :
    (entryKeys (items.foldl dedupeStep [])).Nodup := by
  rw [foldl_dedupeStep_keys]
  have aux : ∀ (ks : List String) (start : List String),
      start.Nodup → (ks.foldl insertKey start).Nodup := by
    intro ks
    induction ks with
    | nil => intro s h; exact h
    | cons k ks ih =>
      intro s h
      rw [List.foldl_cons]
      apply ih
      unfold insertKey
      by_cases hm : k ∈ s
      · simpa [hm] using h
      · simp only [hm, if_false]
        simp [List.nodup_append, h, hm]
  exact aux _ _ (by simp [entryKeys])

theorem mem_foldl_insertKey (ks : List String) :
    ∀ start k, k ∈ ks.foldl insertKey start ↔ k ∈ start ∨ k ∈ ks := by
  induction ks with
  | nil => simp
  | cons k0 ks ih =>
    intro start k
    rw [List.foldl_cons, ih]
    unfold insertKey
    by_cases hm : k0 ∈ start
    · simp only [hm, if_true, List.mem_cons]
      constructor
      · rintro (h | h)
        · exact Or.inl h
        · exact Or.inr (Or.inr h)
      · rintro (h | h | h)
        · exact Or.inl h
        · exact Or.inl (h ▸ hm)
        · exact Or.inr h
    · simp only [hm, if_false, List.mem_append, List.mem_singleton, List.mem_cons]
      tauto

theorem itemKeys_dedupeItems (items : List Item) :
    itemKeys (dedupeItems items) =
      firstOccurrenceKeys ((items.filter fun i => i.label != "").map conflictKey) := by
  have h1 := foldl_dedupeStep_keys items []
  have h2 := dedupeItems_inv items
  unfold itemKeys dedupeItems firstOccurrenceKeys
  rw [List.map_map]
  have h3 : (items.foldl dedupeStep []).map (conflictKey ∘ Prod.snd)
      = (items.foldl dedupeStep []).map Prod.fst :=
    List.map_congr_left fun e he => h2 e he
  rw [h3]
  simpa [entryKeys] using h1

theorem dedupeItems_mem_group (items : List Item) :
    ∀ r ∈ dedupeItems items,
      ∃ h t, groupOf (conflictKey r) items = h :: t ∧ r = t.foldl mergeDedupe h := by
  intro r hr
  rcases List.mem_map.mp hr with ⟨e, he, rfl⟩
  have hkey : conflictKey e.2 = e.1 := dedupeItems_inv items e he
  have hfind : findPair (items.foldl dedupeStep []) e.1 = some e.2 :=
    findPair_of_mem_nodup (entryKeys_final_nodup items) he
  rw [foldl_dedupeStep_find items [] e.1, findPair_nil] at hfind
  cases hg : groupOf e.1 items with
  | nil => rw [hg] at hfind; simp at hfind
  | cons h t =>
    rw [hg] at hfind
    simp only [Option.some.injEq] at hfind
    exact ⟨h, t, by rw [hkey, hg], hfind.symm⟩

theorem dedupeItems_key_exists (items : List Item) {p : Item} (hp : p ∈ items)
    (hl : p.label ≠ "") : ∃ r ∈ dedupeItems items, conflictKey r = conflictKey p := by
  have hmem : conflictKey p ∈ itemKeys (dedupeItems items) := by
    rw [itemKeys_dedupeItems]
    unfold firstOccurrenceKeys
    rw [mem_foldl_insertKey]
    right
    refine List.mem_map.mpr ⟨p, ?_, rfl⟩
    refine List.mem_filter.mpr ⟨hp, ?_⟩
    simpa using hl
  rcases List.mem_map.mp hmem with ⟨r, hr, hk⟩
  exact ⟨r, hr, hk⟩

theorem foldl_merge_label (t : List Item) :
    ∀ h : Item, (t.foldl mergeDedupe h).label = h.label := by
  induction t with
  | nil => intro h; rfl
  | cons x t ih => intro h; rw [List.foldl_cons, ih, mergeDedupe_label]

theorem foldl_merge_id (t : List Item) :
    ∀ h : Item, (t.foldl mergeDedupe h).id = h.id := by
  induction t with
  | nil => intro h; rfl
  | cons x t ih => intro h; rw [List.foldl_cons, ih, mergeDedupe_id]

theorem foldl_merge_group (t : List Item) :
    ∀ h : Item, (t.foldl mergeDedupe h).group = h.group := by
  induction t with
  | nil => intro h; rfl
  | cons x t ih => intro h; rw [List.foldl_cons, ih, mergeDedupe_group]

theorem foldl_merge_checked (c : Bool) (t : List Item) :
    ∀ h : Item, h.checked = c → (∀ x ∈ t, x.checked = c) →
    (t.foldl mergeDedupe h).checked = c := by
  induction t with
  | nil => intro h hh _; exact hh
  | cons x t ih =>
    intro h hh ht
    rw [List.foldl_cons]
    refine ih _ ?_ fun y hy => ht y (List.mem_cons_of_mem _ hy)
    rw [mergeDedupe_checked, hh, ht x (List.mem_cons_self _ _)]
    exact Bool.or_self c

theorem mergeDedupe_bag_eq {bb : Option Bag} {e i : Item} (he : e.bag = bb) (hi : i.bag = bb) :
    (mergeDedupe e i).bag = bb := by
  cases bb <;> simp [mergeDedupe, he, hi]

theorem foldl_merge_bag (bb : Option Bag) (t : List Item) :
    ∀ h : Item, h.bag = bb → (∀ x ∈ t, x.bag = bb) →
    (t.foldl mergeDedupe h).bag = bb := by
  induction t with
  | nil => intro h hh _; exact hh
  | cons x t ih =>
    intro h hh ht
    rw [List.foldl_cons]
    exact ih _ (mergeDedupe_bag_eq hh (ht x (List.mem_cons_self _ _)))
      fun y hy => ht y (List.mem_cons_of_mem _ hy)

theorem mergeDedupe_source_custom {e i : Item}
    (h : e.source = "custom" ∨ i.source = "custom") :
    (mergeDedupe e i).source = "custom" := by
  rcases h with h | h <;> simp [mergeDedupe, h]

theorem foldl_merge_source_custom (t : List Item) :
    ∀ h : Item, (h.source = "custom" ∨ ∃ x ∈ t, x.source = "custom") →
    (t.foldl mergeDedupe h).source = "custom" := by
  induction t with
  | nil =>
    intro h hc
    rcases hc with hc | ⟨x, hx, _⟩
    · exact hc
    · simp at hx
  | cons x t ih =>
    intro h hc
    rw [List.foldl_cons]
    rcases hc with hc | ⟨y, hy, hys⟩
    · exact ih _ (Or.inl (mergeDedupe_source_custom (Or.inl hc)))
    · rcases List.mem_cons.mp hy with rfl | hyt
      · exact ih _ (Or.inl (mergeDedupe_source_custom (Or.inr hys)))
      · exact ih _ (Or.inr ⟨y, hyt, hys⟩)

theorem foldl_dedupeStep_disjoint (l : List Item) :
    ∀ acc, (∀ i ∈ l, i.label ≠ "") → (itemKeys l).Nodup →
      (∀ i ∈ l, conflictKey i ∉ entryKeys acc) →
      l.foldl dedupeStep acc = acc ++ l.map fun i => (conflictKey i, i) := by
  induction l with
  | nil => intro acc _ _ _; simp
  | cons i l ih =>
    intro acc hlab hnd hdis
    rw [List.foldl_cons]
    have hl : ¬ i.label = "" := hlab i (List.mem_cons_self _ _)
    have hfind : findPair acc (conflictKey i) = none :=
      findPair_eq_none.mpr (hdis i (List.mem_cons_self _ _))
    rw [dedupeStep_append hl hfind]
    have hnd2 : (itemKeys l).Nodup := by
      rw [itemKeys, List.map_cons, List.nodup_cons] at hnd
      exact hnd.2
    have hd2 : ∀ j ∈ l, conflictKey j ∉ entryKeys (acc ++ [(conflictKey i, i)]) := by
      intro j hj
      rw [entryKeys_append]
      intro hmem
      rcases List.mem_append.mp hmem with hm | hm
      · exact hdis j (List.mem_cons_of_mem _ hj) hm
      · rw [itemKeys, List.map_cons, List.nodup_cons] at hnd
        have : conflictKey j = conflictKey i := by simpa [entryKeys] using hm
        exact hnd.1 (this ▸ List.mem_map.mpr ⟨j, hj, rfl⟩)
    rw [ih _ (fun j hj => hlab j (List.mem_cons_of_mem _ hj)) hnd2 hd2]
    simp

theorem dedupeItems_id_of_nodup (items : List Item)
    (hlab : ∀ i ∈ items, i.label ≠ "") (hnd : (itemKeys items).Nodup) :
    dedupeItems items = items := by
  unfold dedupeItems
  rw [foldl_dedupeStep_disjoint items [] hlab hnd (by simp [entryKeys])]
  simp only [List.nil_append, List.map_map]
  have h : ∀ i ∈ items, (Prod.snd ∘ fun i => (conflictKey i, i)) i = id i := fun i _ => rfl
  rw [List.map_congr_left h, List.map_id]



theorem nodup_foldl_insertKey (ks : List String) :
    ∀ start, start.Nodup → (ks.foldl insertKey start).Nodup := by
  induction ks with
  | nil => intro s h; exact h
  | cons k ks ih =>
    intro s h
    rw [List.foldl_cons]
    apply ih
    unfold insertKey
    by_cases hm : k ∈ s
    · simpa [hm] using h
    · simp only [hm, if_false]
      simp [List.nodup_append, h, hm]

/-- C3: the output of `dedupeItems` carries pairwise distinct conflict
keys; its key sequence is exactly the distinct keys of the (non-empty
labelled) input in first-occurrence order, so the first occurrence of a
conflict key determines the merged item's position; and a key occurs in
the output exactly when some kept input item carries it. -/
theorem dedupe_unique_keys_order (items : List Item) :
    ((dedupeItems items).map conflictKey).Nodup ∧
    (dedupeItems items).map conflictKey =
      firstOccurrenceKeys ((items.filter fun i => i.label != "").map conflictKey) ∧
    ∀ k, k ∈ (dedupeItems items).map conflictKey ↔
      k ∈ (items.filter fun i => i.label != "").map conflictKey := by
  have hkeys : itemKeys (dedupeItems items) =
      firstOccurrenceKeys ((items.filter fun i => i.label != "").map conflictKey) :=
    itemKeys_dedupeItems items
  refine ⟨?_, hkeys, ?_⟩
  · show (itemKeys (dedupeItems items)).Nodup
    rw [hkeys]
    exact nodup_foldl_insertKey _ _ (List.nodup_nil)
  · intro k
    show k ∈ itemKeys (dedupeItems items) ↔ _
    rw [hkeys]
    unfold firstOccurrenceKeys
    rw [mem_foldl_insertKey]
    simp

theorem dedupe_pair (a b : Item)
    (ha : a.label ≠ "") (hb : b.label ≠ "") (hk : conflictKey a = conflictKey b) :
    dedupeItems [a, b] = [mergeDedupe a b] := by
  have h1 : dedupeStep [] a = [(conflictKey a, a)] := by
    rw [dedupeStep_append ha (findPair_nil _)]
    rfl
  have hfind : findPair [(conflictKey a, a)] (conflictKey b) = some a := by
    rw [findPair_cons, if_pos hk]
  have h2 : dedupeStep [(conflictKey a, a)] b = [(conflictKey b, mergeDedupe a b)] := by
    rw [dedupeStep_merge hb hfind, setPair_cons, if_pos hk, setPair_nil]
  show ([a, b].foldl dedupeStep []).map Prod.snd = [mergeDedupe a b]
  rw [List.foldl_cons, List.foldl_cons, List.foldl_nil, h1, h2]
  rfl

/-- C4: two kept items sharing a conflict key collapse to their merge:
the quantities are summed when both are present, one present quantity is
taken, the quantity stays unset when neither has one, and the merged
checked flag is the OR of the two. -/
theorem dedupe_merge_quantity_checked (a b : Item)
    (ha : a.label ≠ "") (hb : b.label ≠ "") (hk : conflictKey a = conflictKey b) :
    dedupeItems [a, b] = [mergeDedupe a b] ∧
    (mergeDedupe a b).checked = (a.checked || b.checked) ∧
    (mergeDedupe a b).quantity =
      (match a.quantity, b.quantity with
       | some q1, some q2 => some (q1 + q2)
       | some q1, none => some q1
       | none, some q2 => some q2
       | none, none => none) := by
  refine ⟨dedupe_pair a b ha hb hk, mergeDedupe_checked a b, ?_⟩
  cases hqa : a.quantity <;> cases hqb : b.quantity <;> simp [mergeDedupe, hqa, hqb]

/-- Witness for C4 at concrete items: 2x Socks and 3x socks merge into a
single 5x entry whose checked flag is the OR of the inputs. -/
theorem dedupe_merge_quantity_checked_witness :
    dedupeItems [wQtyA, wQtyB] = [mergeDedupe wQtyA wQtyB] ∧
    (mergeDedupe wQtyA wQtyB).quantity = some 5 ∧
    (mergeDedupe wQtyA wQtyB).checked = true := by
  have h := dedupe_merge_quantity_checked wQtyA wQtyB (by decide) (by decide) (by decide)
  exact ⟨h.1, h.2.2, h.2.1⟩



/-! ### The tri-state add/merge gate and bag moves -/

/-- C7: `ensureUniqueOrMerge` settles into exactly one of added, merged
or cancelled.  Without a conflict the prepared item is appended (through
the dedupe engine); with a conflict a confirmed merge raises the existing
quantity by the candidate quantity (each side defaulting to 1 when
absent) and touches no other item; a declined merge reports cancelled and
leaves the state completely unchanged. -/
theorem ensureUniqueOrMerge_tristate (state : AppState) (raw : RawItem) :
    (∀ p, createItem raw = some p →
      state.items.find? (fun i => conflictKey i == conflictKey p) = none →
      ∀ confirm, ensureUniqueOrMerge state raw confirm =
        ({ status := .added, item := some p },
         { state with items := dedupeItems (state.items ++ [p]) })) ∧
    (∀ p e, createItem raw = some p →
      state.items.find? (fun i => conflictKey i == conflictKey p) = some e →
      ensureUniqueOrMerge state raw true =
        ({ status := .merged,
           item := some { e with quantity := some (e.quantity.getD 1 + p.quantity.getD 1) } },
         { state with items := state.items.map fun i =>
             if i.id == e.id then
               { e with quantity := some (e.quantity.getD 1 + p.quantity.getD 1) }
             else i })) ∧
    (∀ p e, createItem raw = some p →
      state.items.find? (fun i => conflictKey i == conflictKey p) = some e →
      ensureUniqueOrMerge state raw false = ({ status := .cancelled, item := some e }, state)) := by
  refine ⟨?_, ?_, ?_⟩
  · intro p hc hf confirm
    simp [ensureUniqueOrMerge, hc, hf]
  · intro p e hc hf
    simp [ensureUniqueOrMerge, hc, hf]
  · intro p e hc hf
    simp [ensureUniqueOrMerge, hc, hf]

/-- Witness for C7: adding the custom HDMI Cable to an empty state is
`added`; adding `"hdmi   cable"` again and confirming yields quantity 2;
declining instead is `cancelled` and the state is untouched. -/
theorem ensureUniqueOrMerge_tristate_witness :
    (ensureUniqueOrMerge {} wMergeRaw true).1.status = .added ∧
    (ensureUniqueOrMerge wMergeState wMergeRaw2 true).1.item
      = some { wHdmiItem with quantity := some 2 } ∧
    ensureUniqueOrMerge wMergeState wMergeRaw2 false
      = ({ status := .cancelled, item := some wHdmiItem }, wMergeState) := by
  have h0 := (ensureUniqueOrMerge_tristate {} wMergeRaw).1 wHdmiItem (by decide) rfl true
  have h1 := (ensureUniqueOrMerge_tristate wMergeState wMergeRaw2).2.1 wHdmiItem2 wHdmiItem
    (by decide) (by decide)
  have h2 := (ensureUniqueOrMerge_tristate wMergeState wMergeRaw2).2.2 wHdmiItem2 wHdmiItem
    (by decide) (by decide)
  refine ⟨?_, ?_, h2⟩
  · rw [h0]
  · rw [h1]
    decide

/-- C8: `moveItemToBag` with a conflict-key collision absorbs the moved
item into the conflicting one — quantities summed with a default of 1
per side — and the moved item's id is gone from the state; without a
collision only the moved item's bag field changes; an unknown id changes
nothing. -/
theorem moveItemToBag_spec (state : AppState) (itemId : String) (bag : Option String) :
    (∀ target conflict,
      state.items.find? (fun i => i.id == itemId) = some target →
      state.items.find? (fun i => i.id != itemId && (conflictKey i ==
        makeItemKey target.label (some ((normalizeBagValue bag).getD Bag.carryOn)))) = some conflict →
      (moveItemToBag state itemId bag).items =
        ((state.items.filter fun i => i.id != itemId).map fun i =>
          if i.id == conflict.id then
            { i with quantity := some (conflict.quantity.getD 1 + target.quantity.getD 1) }
          else i) ∧
      ∀ r ∈ (moveItemToBag state itemId bag).items, r.id ≠ itemId) ∧
    (∀ target,
      state.items.find? (fun i => i.id == itemId) = some target →
      state.items.find? (fun i => i.id != itemId && (conflictKey i ==
        makeItemKey target.label (some ((normalizeBagValue bag).getD Bag.carryOn)))) = none →
      (moveItemToBag state itemId bag).items =
        state.items.map fun i =>
          if i.id == itemId then { i with bag := some ((normalizeBagValue bag).getD Bag.carryOn) }
          else i) ∧
    (state.items.find? (fun i => i.id == itemId) = none →
      moveItemToBag state itemId bag = state) := by
  refine ⟨?_, ?_, ?_⟩
  · intro target conflict hft hfc
    have hitems : (moveItemToBag state itemId bag).items =
        (state.items.filter fun i => i.id != itemId).map fun i =>
          if i.id == conflict.id then
            { i with quantity := some (conflict.quantity.getD 1 + target.quantity.getD 1) }
          else i := by
      simp [moveItemToBag, hft, hfc]
    refine ⟨hitems, ?_⟩
    intro r hr
    rw [hitems] at hr
    rcases List.mem_map.mp hr with ⟨i, hi, rfl⟩
    have hne : (i.id != itemId) = true := (List.mem_filter.mp hi).2
    have hid : i.id ≠ itemId := by simpa using hne
    by_cases hc : i.id == conflict.id
    · simpa [hc] using hid
    · simpa [hc] using hid
  · intro target hft hfc
    simp [moveItemToBag, hft, hfc]
  · intro hft
    simp [moveItemToBag, hft]

/-- Witness for C8: moving `i1` (2x Cable, carry-on) into the work bag
already holding `i2` (3x cable) leaves a single 5x item under `i2` and
no item with id `i1`. -/
theorem moveItemToBag_spec_witness :
    (moveItemToBag wMoveState "i1" (some "work")).items.map (fun i => (i.id, i.quantity))
      = [("i2", some 5)] ∧
    ∀ r ∈ (moveItemToBag wMoveState "i1" (some "work")).items, r.id ≠ "i1" := by
  have h := (moveItemToBag_spec wMoveState "i1" (some "work")).1
    (wMoveState.items.get ⟨0, by decide⟩) (wMoveState.items.get ⟨1, by decide⟩)
    (by decide) (by decide)
  refine ⟨?_, h.2⟩
  rw [h.1]
  decide

/-- C10 (implicit): in the conflict-merge paths of `ensureUniqueOrMerge`
and `moveItemToBag` a missing quantity counts as 1, so merging two
quantity-less items yields an explicit quantity 2 — while the dedupe
engine leaves the quantity unset when neither side has one. -/
theorem default_quantity_one_vs_dedupe_unset :
    (∀ (state : AppState) (raw : RawItem) (p e : Item), createItem raw = some p →
      p.quantity = none →
      state.items.find? (fun i => conflictKey i == conflictKey p) = some e →
      e.quantity = none →
      (ensureUniqueOrMerge state raw true).1.item = some { e with quantity := some 2 }) ∧
    (∀ (state : AppState) (itemId : String) (bag : Option String) (target conflict : Item),
      state.items.find? (fun i => i.id == itemId) = some target →
      state.items.find? (fun i => i.id != itemId && (conflictKey i ==
        makeItemKey target.label (some ((normalizeBagValue bag).getD Bag.carryOn)))) = some conflict →
      target.quantity = none → conflict.quantity = none →
      (moveItemToBag state itemId bag).items =
        (state.items.filter fun i => i.id != itemId).map fun i =>
          if i.id == conflict.id then { i with quantity := some 2 } else i) ∧
    (∀ a b : Item, a.label ≠ "" → b.label ≠ "" → conflictKey a = conflictKey b →
      a.quantity = none → b.quantity = none →
      dedupeItems [a, b] = [mergeDedupe a b] ∧ (mergeDedupe a b).quantity = none) := by
  refine ⟨?_, ?_, ?_⟩
  · intro state raw p e hc hp hf he
    simp [ensureUniqueOrMerge, hc, hf, hp, he]
  · intro state itemId bag target conflict hft hfc ht hcq
    simp [moveItemToBag, hft, hfc, ht, hcq]
  · intro a b ha hb hk hqa hqb
    exact ⟨dedupe_pair a b ha hb hk, by simp [mergeDedupe, hqa, hqb]⟩

/-- Witness for C10: a confirmed duplicate add of a quantity-less item
yields quantity 2; a bag move merging two quantity-less items yields
quantity 2; deduping the same two items leaves the quantity unset. -/
theorem default_quantity_witness :
    (ensureUniqueOrMerge wNoQtyState wNoQtyRaw true).1.item
      = some { wNoQtyA with quantity := some 2 } ∧
    (moveItemToBag wMoveStateNoQty "i1" (some "work")).items.map Item.quantity = [some 2] ∧
    (dedupeItems [wNoQtyA, wNoQtyB]).map Item.quantity = [none] := by
  have h1 := default_quantity_one_vs_dedupe_unset.1 wNoQtyState wNoQtyRaw wNoQtyPrepared wNoQtyA
    (by decide) rfl (by decide) rfl
  have h2 := default_quantity_one_vs_dedupe_unset.2.1 wMoveStateNoQty "i1" (some "work")
    (wMoveStateNoQty.items.get ⟨0, by decide⟩) (wMoveStateNoQty.items.get ⟨1, by decide⟩)
    (by decide) (by decide) rfl rfl
  have h3 := default_quantity_one_vs_dedupe_unset.2.2 wNoQtyA wNoQtyB
    (by decide) (by decide) (by decide) rfl rfl
  refine ⟨h1, ?_, ?_⟩
  · rw [h2]
    decide
  · rw [h3.1]
    decide



/-! ### The weather-to-checklist mapping -/

theorem dedupeByLabel_weather_lists (A B C : List RawItem)
    (hA : A = [] ∨ A = [weatherDescriptor "other" "Umbrella", weatherDescriptor "clothing" "Raincoat"])
    (hB : B = [] ∨ B = [weatherDescriptor "clothing" "Gloves", weatherDescriptor "clothing" "Wool Beanie"])
    (hC : C = [] ∨ C = [weatherDescriptor "other" "Sunscreen", weatherDescriptor "other" "Sunglasses"]) :
    dedupeByLabelAux [] (A ++ B ++ C) = A ++ B ++ C := by
  rcases hA with rfl | rfl <;> rcases hB with rfl | rfl <;> rcases hC with rfl | rfl <;> rfl

/-- C9: the weather mapping returns exactly the descriptors dictated by
the snapshot thresholds — Umbrella and Raincoat when the (first
available) precipitation value is positive, Gloves and Wool Beanie when
the minimum temperature is below 5, Sunscreen and Sunglasses when the
maximum temperature is above 24, nothing otherwise — and the empty list
for a missing snapshot. -/
theorem mapWeatherToItems_spec :
    mapWeatherToItems none = [] ∧
    ∀ w : WSnapshot,
      mapWeatherToItems (some w) =
        (match pickFirstNumber [w.precipitation, w.precipitation_sum, w.rain] with
         | some p =>
           if p > 0 then
             [weatherDescriptor "other" "Umbrella", weatherDescriptor "clothing" "Raincoat"]
           else []
         | none => []) ++
        (match pickFirstNumber [w.minC, w.temperatureMin, w.low] with
         | some t =>
           if t < 5 then
             [weatherDescriptor "clothing" "Gloves", weatherDescriptor "clothing" "Wool Beanie"]
           else []
         | none => []) ++
        (match pickFirstNumber [w.maxC, w.temperatureMax, w.high] with
         | some t =>
           if t > 24 then
             [weatherDescriptor "other" "Sunscreen", weatherDescriptor "other" "Sunglasses"]
           else []
         | none => []) := by
  refine ⟨rfl, fun w => ?_⟩
  refine dedupeByLabel_weather_lists _ _ _ ?_ ?_ ?_
  · cases pickFirstNumber [w.precipitation, w.precipitation_sum, w.rain] with
    | none => exact Or.inl rfl
    | some p =>
      by_cases hp : p > 0
      · exact Or.inr (if_pos hp)
      · exact Or.inl (if_neg hp)
  · cases pickFirstNumber [w.minC, w.temperatureMin, w.low] with
    | none => exact Or.inl rfl
    | some t =>
      by_cases ht : t < 5
      · exact Or.inr (if_pos ht)
      · exact Or.inl (if_neg ht)
  · cases pickFirstNumber [w.maxC, w.temperatureMax, w.high] with
    | none => exact Or.inl rfl
    | some t =>
      by_cases ht : t > 24
      · exact Or.inr (if_pos ht)
      · exact Or.inl (if_neg ht)



/-! ### Template application -/

theorem createItem_fields {raw : RawItem} {p : Item} (h : createItem raw = some p) :
    p.label = jsTrim raw.label ∧ p.label ≠ "" ∧
    p.source = (match raw.source with
      | some s => if s = "" then "base" else s
      | none => "base") := by
  by_cases ht : jsTrim raw.label = ""
  · simp [createItem, ht] at h
  · simp only [createItem, ht, if_neg, if_false, Option.some.injEq] at h
    rw [← h]
    exact ⟨rfl, ht, rfl⟩

theorem convertTemplateItem_fields {entry : TemplateEntry} {tid : String} {p : Item}
    (h : convertTemplateItem entry tid = some p) :
    p.label ≠ "" ∧ p.source = (if tid = "" then "template" else "template:" ++ tid) := by
  have hf := createItem_fields h
  refine ⟨hf.2.1, ?_⟩
  rw [hf.2.2]
  by_cases htid : tid = ""
  · simp [htid]
  · have hne : ("template:" ++ tid) ≠ "" := by
      intro hcon
      have hlen := congrArg String.length hcon
      rw [String.length_append] at hlen
      have h9 : ("template:" : String).length = 9 := rfl
      have h0 : ("" : String).length = 0 := rfl
      omega
    simp [htid, hne]

theorem template_source_ne_custom_weather (tid : String) :
    (if tid = "" then "template" else "template:" ++ tid) ≠ "custom" ∧
    (if tid = "" then "template" else "template:" ++ tid) ≠ "weather" := by
  by_cases htid : tid = ""
  · rw [if_pos htid]
    exact ⟨by decide, by decide⟩
  · rw [if_neg htid]
    constructor
    · intro hcon
      have := congrArg String.length hcon
      rw [String.length_append] at this
      have h9 : ("template:" : String).length = 9 := rfl
      have h6 : ("custom" : String).length = 6 := rfl
      omega
    · intro hcon
      have := congrArg String.length hcon
      rw [String.length_append] at this
      have h9 : ("template:" : String).length = 9 := rfl
      have h7 : ("weather" : String).length = 7 := rfl
      omega

theorem replacePick_spec (cs : List Item) :
    ∀ seen, (∀ t ∈ (replacePick seen cs).1, t ∈ cs ∧ conflictKey t ∉ seen) ∧
      (itemKeys (replacePick seen cs).1).Nodup := by
  induction cs with
  | nil =>
    intro seen
    exact ⟨fun t ht => absurd ht (by simp [replacePick]), by simp [replacePick, itemKeys]⟩
  | cons c cs ih =>
    intro seen
    by_cases hc : conflictKey c ∈ seen
    · have hstep : (replacePick seen (c :: cs)).1 = (replacePick seen cs).1 := by
        simp [replacePick, hc]
      rw [hstep]
      refine ⟨fun t ht => ?_, (ih seen).2⟩
      have h2 := (ih seen).1 t ht
      exact ⟨List.mem_cons_of_mem _ h2.1, h2.2⟩
    · have hstep : (replacePick seen (c :: cs)).1
          = c :: (replacePick (seen ++ [conflictKey c]) cs).1 := by
        simp [replacePick, hc]
      rw [hstep]
      constructor
      · intro t ht
        rcases List.mem_cons.mp ht with rfl | hm
        · exact ⟨List.mem_cons_self _ _, hc⟩
        · have h2 := (ih (seen ++ [conflictKey c])).1 t hm
          exact ⟨List.mem_cons_of_mem _ h2.1,
            fun hmem => h2.2 (List.mem_append_left _ hmem)⟩
      · rw [itemKeys, List.map_cons, List.nodup_cons]
        refine ⟨?_, (ih _).2⟩
        intro hmem
        rcases List.mem_map.mp hmem with ⟨t, ht, hk⟩
        have h2 := (ih (seen ++ [conflictKey c])).1 t ht
        exact h2.2 (List.mem_append_right _ (by simp [hk]))

theorem applyTemplate_items_skip (state : AppState) (tpl : Template) (mode now : String)
    (he : (sanitizeTemplateItems tpl).1.isEmpty) :
    (applyTemplate state tpl mode now).2 = state := by
  simp [applyTemplate, he]

theorem applyTemplate_items_replace (state : AppState) (tpl : Template) (now : String)
    (hne : ¬ (sanitizeTemplateItems tpl).1.isEmpty) :
    (applyTemplate state tpl "replace" now).2.items =
      dedupeItems
        ((replacePick
            ((state.items.filter fun i => i.source == "custom" || i.source == "weather").map
              conflictKey)
            ((sanitizeTemplateItems tpl).1.filterMap fun e => convertTemplateItem e tpl.id)).1 ++
          (state.items.filter fun i => i.source == "custom" || i.source == "weather")) := by
  simp [applyTemplate, hne]



/-- C5: applying a template in replace mode twice yields exactly the item
list of applying it once, for every template and every state satisfying
the documented state invariants (unique conflict keys, non-empty
labels). -/
theorem applyTemplate_replace_idempotent (state : AppState) (tpl : Template) (now1 now2 : String)
    (hnd : (itemKeys state.items).Nodup) (hlab : ∀ i ∈ state.items, i.label ≠ "") :
    (applyTemplate (applyTemplate state tpl "replace" now1).2 tpl "replace" now2).2.items
      = (applyTemplate state tpl "replace" now1).2.items := by
  by_cases hempty : (sanitizeTemplateItems tpl).1.isEmpty
  · rw [applyTemplate_items_skip state tpl "replace" now1 hempty,
        applyTemplate_items_skip state tpl "replace" now2 hempty]
  · set R := state.items.filter (fun i => i.source == "custom" || i.source == "weather")
      with hRdef
    set converted := (sanitizeTemplateItems tpl).1.filterMap (fun e => convertTemplateItem e tpl.id)
      with hconvdef
    set T := (replacePick (R.map conflictKey) converted).1 with hTdef
    have hconvmem : ∀ t ∈ converted, t.label ≠ "" ∧
        t.source = (if tpl.id = "" then "template" else "template:" ++ tpl.id) := by
      intro t ht
      rw [hconvdef] at ht
      rcases List.mem_filterMap.mp ht with ⟨e, _, hc⟩
      exact convertTemplateItem_fields hc
    have hTspec := replacePick_spec converted (R.map conflictKey)
    have hTsub : ∀ t ∈ T, t ∈ converted := fun t ht => (hTspec.1 t ht).1
    have hTdis : ∀ t ∈ T, conflictKey t ∉ R.map conflictKey := fun t ht => (hTspec.1 t ht).2
    have hTnd : (itemKeys T).Nodup := hTspec.2
    have hRlab : ∀ i ∈ R, i.label ≠ "" := by
      intro i hi
      rw [hRdef] at hi
      exact hlab i (List.mem_of_mem_filter hi)
    have hRnd : (itemKeys R).Nodup := by
      rw [hRdef]
      exact hnd.sublist ((List.filter_sublist _).map conflictKey)
    have hTRlab : ∀ i ∈ T ++ R, i.label ≠ "" := by
      intro i hi
      rcases List.mem_append.mp hi with hm | hm
      · exact (hconvmem i (hTsub i hm)).1
      · exact hRlab i hm
    have hTRnd : (itemKeys (T ++ R)).Nodup := by
      rw [itemKeys, List.map_append, List.nodup_append]
      refine ⟨hTnd, hRnd, ?_⟩
      intro a ha hb
      rcases List.mem_map.mp ha with ⟨t, htT, rfl⟩
      exact hTdis t htT hb
    have happly1 : (applyTemplate state tpl "replace" now1).2.items = T ++ R := by
      rw [applyTemplate_items_replace state tpl now1 hempty, ← hRdef, ← hconvdef, ← hTdef]
      exact dedupeItems_id_of_nodup _ hTRlab hTRnd
    have hfilterT : T.filter (fun i => i.source == "custom" || i.source == "weather") = [] := by
      rw [List.filter_eq_nil_iff]
      intro t ht
      have hsrc := (hconvmem t (hTsub t ht)).2
      have hts := template_source_ne_custom_weather tpl.id
      simp [hsrc, hts.1, hts.2]
    have hfilterR : R.filter (fun i => i.source == "custom" || i.source == "weather") = R := by
      rw [hRdef]
      exact List.filter_eq_self.mpr fun i hi => (List.mem_filter.mp hi).2
    have hfilter2 : (T ++ R).filter (fun i => i.source == "custom" || i.source == "weather")
        = R := by
      rw [List.filter_append, hfilterT, hfilterR, List.nil_append]
    have happly2 : (applyTemplate (applyTemplate state tpl "replace" now1).2 tpl
        "replace" now2).2.items = dedupeItems (T ++ R) := by
      rw [applyTemplate_items_replace _ tpl now2 hempty, happly1, ← hconvdef, hfilter2]
    rw [happly2, happly1]
    exact dedupeItems_id_of_nodup _ hTRlab hTRnd

/-- Witness for C5: applying the built-in Overnight Pitch template twice
in replace mode to a small custom-item state reproduces the item list of
the single application. -/
theorem applyTemplate_replace_idempotent_witness :
    (applyTemplate (applyTemplate wNoQtyState overnightPitch "replace" "t1").2
        overnightPitch "replace" "t2").2.items
      = (applyTemplate wNoQtyState overnightPitch "replace" "t1").2.items :=
  applyTemplate_replace_idempotent wNoQtyState overnightPitch "t1" "t2"
    (by decide) (by decide)



/-! ### Checklist regeneration -/

theorem buildKeyMap_eq (items : List Item) (hnd : (itemKeys items).Nodup) :
    buildKeyMap items = items.map fun i => (conflictKey i, i) := by
  have aux : ∀ (l : List Item) (m : List (String × Item)),
      (∀ i ∈ l, conflictKey i ∉ entryKeys m) → (itemKeys l).Nodup →
      l.foldl (fun m i =>
        match findPair m (conflictKey i) with
        | some _ => setPair m (conflictKey i) i
        | none => m ++ [(conflictKey i, i)]) m = m ++ l.map fun i => (conflictKey i, i) := by
    intro l
    induction l with
    | nil => intro m _ _; simp
    | cons i l ih =>
      intro m hdis hnd2
      rw [List.foldl_cons]
      have hfind : findPair m (conflictKey i) = none :=
        findPair_eq_none.mpr (hdis i (List.mem_cons_self _ _))
      rw [show (match findPair m (conflictKey i) with
          | some _ => setPair m (conflictKey i) i
          | none => m ++ [(conflictKey i, i)]) = m ++ [(conflictKey i, i)] by rw [hfind]]
      have hnd3 : (itemKeys l).Nodup := by
        rw [itemKeys, List.map_cons, List.nodup_cons] at hnd2
        exact hnd2.2
      have hdis2 : ∀ j ∈ l, conflictKey j ∉ entryKeys (m ++ [(conflictKey i, i)]) := by
        intro j hj hmem
        rw [entryKeys_append] at hmem
        rcases List.mem_append.mp hmem with hm | hm
        · exact hdis j (List.mem_cons_of_mem _ hj) hm
        · rw [itemKeys, List.map_cons, List.nodup_cons] at hnd2
          have heq : conflictKey j = conflictKey i := by simpa [entryKeys] using hm
          exact hnd2.1 (heq ▸ List.mem_map.mpr ⟨j, hj, rfl⟩)
      rw [ih _ hdis2 hnd3]
      simp
  unfold buildKeyMap
  rw [aux items [] (by simp [entryKeys]) hnd]
  simp

theorem findPair_map_pair (items : List Item) (k : String) :
    findPair (items.map fun i => (conflictKey i, i)) k
      = items.find? fun i => conflictKey i == k := by
  induction items with
  | nil => rfl
  | cons i l ih =>
    rw [List.map_cons, findPair_cons, List.find?_cons]
    by_cases h : conflictKey i = k
    · have hb : (conflictKey i == k) = true := by simpa using h
      simp [h, hb]
    · have hb : (conflictKey i == k) = false := by simpa using h
      simp [h, hb, ih]

theorem key_inj_of_nodup {items : List Item} (hnd : (itemKeys items).Nodup) {a b : Item}
    (ha : a ∈ items) (hb : b ∈ items) (hk : conflictKey a = conflictKey b) : a = b :=
  List.inj_on_of_nodup_map hnd ha hb hk

theorem find?_key_self {items : List Item} (hnd : (itemKeys items).Nodup) {p : Item}
    (hp : p ∈ items) :
    items.find? (fun i => conflictKey i == conflictKey p) = some p := by
  induction items with
  | nil => simp at hp
  | cons a l ih =>
    rw [List.find?_cons]
    rcases List.mem_cons.mp hp with rfl | hm
    · simp
    · rw [itemKeys, List.map_cons, List.nodup_cons] at hnd
      have hne : conflictKey a ≠ conflictKey p := by
        intro h
        exact hnd.1 (h ▸ List.mem_map.mpr ⟨p, hm, rfl⟩)
      have hb : (conflictKey a == conflictKey p) = false := by simpa using hne
      simp only [hb]
      exact ih hnd.2 hm

theorem mem_groupOf {k : String} {items : List Item} {x : Item} :
    x ∈ groupOf k items ↔ x ∈ items ∧ x.label ≠ "" ∧ conflictKey x = k := by
  simp [groupOf, List.mem_filter, and_assoc]

theorem createItem_checked {raw : RawItem} {p : Item} (h : createItem raw = some p) :
    p.checked = raw.checked := by
  by_cases ht : jsTrim raw.label = ""
  · simp [createItem, ht] at h
  · simp only [createItem, ht, if_neg, if_false, Option.some.injEq] at h
    rw [← h]

theorem activityAddOns_unchecked (k : String) :
    ∀ raw ∈ activityAddOns k, raw.checked = false := by
  intro raw hr
  unfold activityAddOns at hr
  split at hr <;>
    simp only [List.mem_cons, List.mem_singleton, List.not_mem_nil, or_false] at hr <;>
    first
      | exact hr.elim (fun h => by rw [h]) (fun h => by rw [h])
      | (rw [hr])

theorem mapDurationToItems_unchecked (d : Int) :
    ∀ raw ∈ mapDurationToItems d, raw.checked = false := by
  intro raw hr
  unfold mapDurationToItems at hr
  rcases List.mem_append.mp hr with hm | hm <;>
    rcases List.mem_map.mp hm with ⟨lbl, _, rfl⟩ <;> rfl

theorem buildBaseItems_unchecked (trip : Trip) :
    ∀ i ∈ buildBaseItems trip, i.checked = false := by
  intro i hi
  have hsrc : ∀ x ∈ (CHECKLIST_TEMPLATE.flatMap fun gl =>
      gl.2.filterMap fun label =>
        createItem { group := some gl.1, label := label, source := some "base", bag := some "carryOn" }) ++
      (mapDurationToItems trip.durationDays).filterMap createItem ++
      (trip.activities.flatMap activityAddOns).filterMap createItem, x.checked = false := by
    intro x hx
    rcases List.mem_append.mp hx with hx | hx
    · rcases List.mem_append.mp hx with hx | hx
      · rcases List.mem_flatMap.mp hx with ⟨gl, _, hx2⟩
        rcases List.mem_filterMap.mp hx2 with ⟨lbl, _, hc⟩
        rw [createItem_checked hc]
      · rcases List.mem_filterMap.mp hx with ⟨raw, hraw, hc⟩
        rw [createItem_checked hc]
        exact mapDurationToItems_unchecked _ raw hraw
    · rcases List.mem_filterMap.mp hx with ⟨raw, hraw, hc⟩
      rw [createItem_checked hc]
      rcases List.mem_flatMap.mp hraw with ⟨a, _, hraw2⟩
      exact activityAddOns_unchecked a raw hraw2
  rcases dedupeItems_mem_group _ i hi with ⟨h, t, hg, rfl⟩
  have hgm : ∀ x ∈ h :: t, x.checked = false := by
    intro x hx
    rw [← hg] at hx
    exact hsrc x (mem_groupOf.mp hx).1
  exact foldl_merge_checked false t h (hgm h (List.mem_cons_self _ _))
    fun x hx => hgm x (List.mem_cons_of_mem _ hx)



theorem generateChecklist_items (state : AppState) (wi : Option (List RawItem)) :
    (generateChecklist state wi).items =
      dedupeItems
        (((buildBaseItems state.trip).map fun item =>
            match findPair (buildKeyMap state.items) (conflictKey item) with
            | some existing => existing
            | none => item) ++
          (state.items.filter fun i => i.source == "custom") ++
          ((match wi with
            | some ws => ws.filterMap createWeatherItem
            | none => state.items.filter fun i => i.source == "weather").map fun item =>
            match findPair (buildKeyMap state.items) (conflictKey item) with
            | some existing => { existing with source := "weather" }
            | none => { item with checked := false })) := rfl

/-- C6 (amended): regeneration preserves the checked flag of every item
whose conflict key persists, items under a fresh conflict key enter
unchecked, and every custom item survives with its conflict key, id,
group, label, bag, checked flag and custom source intact (its quantity,
however, can be summed with a freshly generated duplicate — see the
counterexample). -/
theorem generate_preserves_user_state (state : AppState) (wi : Option (List RawItem))
    (hnd : (itemKeys state.items).Nodup) (hlab : ∀ i ∈ state.items, i.label ≠ "") :
    (∀ p ∈ state.items, ∀ r ∈ (generateChecklist state wi).items,
      conflictKey r = conflictKey p → r.checked = p.checked) ∧
    (∀ r ∈ (generateChecklist state wi).items,
      conflictKey r ∉ itemKeys state.items → r.checked = false) ∧
    (∀ p ∈ state.items, p.source = "custom" →
      ∃ r ∈ (generateChecklist state wi).items,
        conflictKey r = conflictKey p ∧ r.id = p.id ∧ r.group = p.group ∧
        r.label = p.label ∧ r.bag = p.bag ∧
        r.checked = p.checked ∧ r.source = "custom") := by
  have hprev_some : ∀ {k : String} {e : Item},
      findPair (buildKeyMap state.items) k = some e → e ∈ state.items ∧ conflictKey e = k := by
    intro k e h
    rw [buildKeyMap_eq state.items hnd, findPair_map_pair] at h
    refine ⟨List.mem_of_find?_eq_some h, ?_⟩
    have := List.find?_some h
    simpa using this
  have hprev_none : ∀ {k : String},
      findPair (buildKeyMap state.items) k = none → k ∉ itemKeys state.items := by
    intro k h hmem
    rw [buildKeyMap_eq state.items hnd, findPair_map_pair, List.find?_eq_none] at h
    rcases List.mem_map.mp hmem with ⟨p, hp, rfl⟩
    have h2 := h p hp
    simp at h2
  obtain ⟨C, hCdef, hCitems⟩ :
      ∃ C, C =
        (((buildBaseItems state.trip).map fun item =>
            match findPair (buildKeyMap state.items) (conflictKey item) with
            | some existing => existing
            | none => item) ++
          (state.items.filter fun i => i.source == "custom") ++
          ((match wi with
            | some ws => ws.filterMap createWeatherItem
            | none => state.items.filter fun i => i.source == "weather").map fun item =>
            match findPair (buildKeyMap state.items) (conflictKey item) with
            | some existing => { existing with source := "weather" }
            | none => { item with checked := false })) ∧
        (generateChecklist state wi).items = dedupeItems C :=
    ⟨_, rfl, generateChecklist_items state wi⟩
  have hseedA : ∀ p ∈ state.items, ∀ x ∈ C, conflictKey x = conflictKey p →
      (x = p ∨ x = { p with source := "weather" }) := by
    intro p hp x hx hkx
    rw [hCdef] at hx
    rcases List.mem_append.mp hx with hx | hx
    · rcases List.mem_append.mp hx with hx | hx
      · rcases List.mem_map.mp hx with ⟨y, _, rfl⟩
        cases hf : findPair (buildKeyMap state.items) (conflictKey y) with
        | some e =>
          simp only [hf] at hkx ⊢
          exact Or.inl (key_inj_of_nodup hnd (hprev_some hf).1 hp hkx)
        | none =>
          simp only [hf] at hkx ⊢
          exact absurd (hkx ▸ List.mem_map.mpr ⟨p, hp, rfl⟩) (hprev_none hf)
      · exact Or.inl (key_inj_of_nodup hnd (List.mem_of_mem_filter hx) hp hkx)
    · rcases List.mem_map.mp hx with ⟨y, _, rfl⟩
      cases hf : findPair (buildKeyMap state.items) (conflictKey y) with
      | some e =>
        simp only [hf] at hkx ⊢
        have hek : conflictKey e = conflictKey p := by
          rw [show conflictKey { e with source := "weather" } = conflictKey e from rfl] at hkx
          exact hkx
        have : e = p := key_inj_of_nodup hnd (hprev_some hf).1 hp hek
        exact Or.inr (by rw [this])
      | none =>
        simp only [hf] at hkx ⊢
        rw [show conflictKey { y with checked := false } = conflictKey y from rfl] at hkx
        exact absurd (hkx ▸ List.mem_map.mpr ⟨p, hp, rfl⟩) (hprev_none hf)
  have hseedB : ∀ x ∈ C, conflictKey x ∉ itemKeys state.items → x.checked = false := by
    intro x hx hnk
    rw [hCdef] at hx
    rcases List.mem_append.mp hx with hx | hx
    · rcases List.mem_append.mp hx with hx | hx
      · rcases List.mem_map.mp hx with ⟨y, hy, rfl⟩
        cases hf : findPair (buildKeyMap state.items) (conflictKey y) with
        | some e =>
          simp only [hf] at hnk ⊢
          exact absurd (List.mem_map.mpr ⟨e, (hprev_some hf).1, rfl⟩) hnk
        | none =>
          simp only [hf] at hnk ⊢
          exact buildBaseItems_unchecked state.trip y hy
      · exact absurd (List.mem_map.mpr ⟨x, List.mem_of_mem_filter hx, rfl⟩) hnk
    · rcases List.mem_map.mp hx with ⟨y, _, rfl⟩
      cases hf : findPair (buildKeyMap state.items) (conflictKey y) with
      | some e =>
        simp only [hf] at hnk ⊢
        exact absurd
          (List.mem_map.mpr ⟨e, (hprev_some hf).1,
            (show conflictKey { e with source := "weather" } = conflictKey e from rfl).symm⟩) hnk
      | none =>
        simp only [hf]
  refine ⟨?_, ?_, ?_⟩
  · intro p hp r hr hk
    rw [hCitems] at hr
    obtain ⟨h, t, hg, rfl⟩ := dedupeItems_mem_group C r hr
    have hallc : ∀ x ∈ h :: t, x.checked = p.checked := by
      intro x hx
      rw [← hg] at hx
      have hxg := mem_groupOf.mp hx
      rcases hseedA p hp x hxg.1 (by rw [hxg.2.2, hk]) with rfl | rfl
      · rfl
      · rfl
    exact foldl_merge_checked p.checked t h (hallc h (List.mem_cons_self _ _))
      fun x hx => hallc x (List.mem_cons_of_mem _ hx)
  · intro r hr hnk
    rw [hCitems] at hr
    obtain ⟨h, t, hg, rfl⟩ := dedupeItems_mem_group C r hr
    have hallc : ∀ x ∈ h :: t, x.checked = false := by
      intro x hx
      rw [← hg] at hx
      have hxg := mem_groupOf.mp hx
      exact hseedB x hxg.1 (hxg.2.2 ▸ hnk)
    exact foldl_merge_checked false t h (hallc h (List.mem_cons_self _ _))
      fun x hx => hallc x (List.mem_cons_of_mem _ hx)
  · intro p hp hsrc
    have hpC : p ∈ C := by
      rw [hCdef]
      refine List.mem_append.mpr (Or.inl (List.mem_append.mpr (Or.inr ?_)))
      exact List.mem_filter.mpr ⟨hp, by simp [hsrc]⟩
    obtain ⟨r, hrC, hkr⟩ := dedupeItems_key_exists C hpC (hlab p hp)
    obtain ⟨h, t, hg, hre⟩ := dedupeItems_mem_group C r hrC
    have hall : ∀ x ∈ h :: t, x = p ∨ x = { p with source := "weather" } := by
      intro x hx
      rw [← hg] at hx
      have hxg := mem_groupOf.mp hx
      exact hseedA p hp x hxg.1 (by rw [hxg.2.2, hkr])
    have hlabel : r.label = p.label := by
      rw [hre, foldl_merge_label]
      rcases hall h (List.mem_cons_self _ _) with rfl | rfl
      · rfl
      · rfl
    have hid : r.id = p.id := by
      rw [hre, foldl_merge_id]
      rcases hall h (List.mem_cons_self _ _) with rfl | rfl
      · rfl
      · rfl
    have hgroup : r.group = p.group := by
      rw [hre, foldl_merge_group]
      rcases hall h (List.mem_cons_self _ _) with rfl | rfl
      · rfl
      · rfl
    have hbag : r.bag = p.bag := by
      rw [hre]
      refine foldl_merge_bag p.bag t h ?_ fun x hx => ?_
      · rcases hall h (List.mem_cons_self _ _) with rfl | rfl
        · rfl
        · rfl
      · rcases hall x (List.mem_cons_of_mem _ hx) with rfl | rfl
        · rfl
        · rfl
    have hchecked : r.checked = p.checked := by
      rw [hre]
      refine foldl_merge_checked p.checked t h ?_ fun x hx => ?_
      · rcases hall h (List.mem_cons_self _ _) with rfl | rfl
        · rfl
        · rfl
      · rcases hall x (List.mem_cons_of_mem _ hx) with rfl | rfl
        · rfl
        · rfl
    have hsource : r.source = "custom" := by
      rw [hre]
      apply foldl_merge_source_custom
      have hpg : p ∈ h :: t := by
        rw [← hg]
        exact mem_groupOf.mpr ⟨hpC, hlab p hp, hkr.symm⟩
      rcases List.mem_cons.mp hpg with rfl | hpt
      · exact Or.inl hsrc
      · exact Or.inr ⟨p, hpt, hsrc⟩
    exact ⟨r, by rw [hCitems]; exact hrC, hkr, hid, hgroup, hlabel, hbag, hchecked, hsource⟩

/-- Counterexample for C6 as stated: regenerating a state whose only item
is a custom 2x Shirt (conflict key shared with the generated base Shirt)
yields a custom Shirt with quantity 4 — the custom item is not carried
over untouched. -/
theorem generate_doubles_custom_quantity :
    cexGenerateState.items.map (fun i => (i.source, i.quantity)) = [("custom", some 2)] ∧
    ((generateChecklist cexGenerateState none).items.filter
        fun i => i.label == "Shirt").map (fun i => (i.source, i.quantity, i.checked))
      = [("custom", some 4, false)] := by
  exact ⟨rfl, by decide⟩

/-- Witness for C6 at a concrete state: the checked custom Travel Pillow
survives regeneration with key, id, group, label, bag, checked flag and
source intact. -/
theorem generate_preserves_user_state_witness :
    ∃ r ∈ (generateChecklist wGenState none).items,
      conflictKey r = conflictKey wGenItem ∧ r.id = wGenItem.id ∧
      r.group = wGenItem.group ∧ r.label = wGenItem.label ∧
      r.bag = wGenItem.bag ∧ r.checked = wGenItem.checked ∧ r.source = "custom" :=
  (generate_preserves_user_state wGenState none (by decide) (by decide)).2.2
    wGenItem (by decide) rfl



/-! ### The share codec -/

end BTC

